import Mathlib

/-!
# MAC address management (`components/esp_common/src/mac_addr.c`)

A shallow embedding of the base-MAC store, the custom-MAC and factory-MAC fuse
reads, the locally-administered derivation and the per-interface resolver,
followed by the properties established about them.

Conventions of the embedding:
* a `uint8_t` is a `Byte` (a natural number below 256); every arithmetic
  result stored into one is reduced with an explicit `% 256` (`u8`);
* a `uint8_t[6]` buffer is a `Mac`, a record of its six bytes; the buffer of
  `esp_efuse_mac_get_custom`, whose size depends on the build, is a list of bytes;
* a pointer argument that the code tests against `NULL` is an `Option`;
* the global `base_mac_addr` is threaded explicitly: a function that may
  write it returns its new content;
* a function that writes through an output pointer returns the content of
  that buffer after the call.
-/

namespace MacAddr

/-! ## Data model -/

/-- An unsigned 8-bit value (`uint8_t`). -/
abbrev Byte := Fin 256

/-- Conversion of an `int` result to `uint8_t`: reduction modulo 256. -/
def u8 (n : Nat) : Byte := ⟨n % 256, Nat.mod_lt n (by decide)⟩

/-- A six-byte buffer `uint8_t[6]`; `bk` is the element at index `k`. -/
structure Mac where
  b0 : Byte
  b1 : Byte
  b2 : Byte
  b3 : Byte
  b4 : Byte
  b5 : Byte
deriving DecidableEq, Repr

/-- The bytes of a buffer in index order. -/
def Mac.bytes (m : Mac) : List Byte := [m.b0, m.b1, m.b2, m.b3, m.b4, m.b5]

/-- The big-endian 48-bit value of a buffer (byte 0 is the most significant). -/
def Mac.toNat (m : Mac) : Nat :=
  m.b0.val * 2 ^ 40 + m.b1.val * 2 ^ 32 + m.b2.val * 2 ^ 24 + m.b3.val * 2 ^ 16
    + m.b4.val * 2 ^ 8 + m.b5.val

/-- The initialiser `{ 0 }` of a six-byte array. -/
def null_mac : Mac := ⟨0, 0, 0, 0, 0, 0⟩

/-- Library `memcmp(p, q, n)` on the bytes starting at `p` and `q`: zero when the
first `n` bytes agree, otherwise the difference of the first pair that differs
(only its sign is specified by the C standard). -/
def memcmp : List Byte → List Byte → Nat → Int
  | a :: p, b :: q, n + 1 => if a = b then memcmp p q n else (a.val : Int) - (b.val : Int)
  | _, _, _ => 0

/-- Modelled from the spec: the error codes of `esp_err.h`, which is not under
`src/`. Only the codes this file returns are listed, together with `ESP_FAIL`
for a generic failure of the fuse driver; the code only ever compares a code
with `ESP_OK`. -/
inductive esp_err_t where
  | ESP_OK
  | ESP_FAIL
  | ESP_ERR_INVALID_ARG
  | ESP_ERR_INVALID_CRC
  | ESP_ERR_INVALID_VERSION
  | ESP_ERR_INVALID_MAC
deriving DecidableEq, Repr

open esp_err_t

/-- Modelled from the spec: `esp_mac_type_t` of `esp_system.h` (not under
`src/`), the closed set station, soft-AP, Bluetooth, Ethernet in this order.
The argument itself is an `int`-valued enum, so the range check of
`esp_read_mac` is meaningful. -/
def ESP_MAC_WIFI_STA : Int := 0

/-- See `ESP_MAC_WIFI_STA`. -/
def ESP_MAC_WIFI_SOFTAP : Int := 1

/-- See `ESP_MAC_WIFI_STA`. -/
def ESP_MAC_BT : Int := 2

/-- See `ESP_MAC_WIFI_STA`. -/
def ESP_MAC_ETH : Int := 3

/-- The chip the file is compiled for (`CONFIG_IDF_TARGET_*`). -/
inductive idf_target where
  | ESP32
  | ESP32S2
  | OTHER
deriving DecidableEq, Repr

/-- The build-time configuration (`sdkconfig.h`) the preprocessor branches on. -/
structure Config where
  CONFIG_IDF_TARGET : idf_target
  CONFIG_ESP_MAC_IGNORE_MAC_CRC_ERROR : Bool
  CONFIG_ESP_MAC_ADDR_UNIVERSE_WIFI_AP : Bool
  CONFIG_ESP_MAC_ADDR_UNIVERSE_BT : Bool
  CONFIG_ESP_MAC_ADDR_UNIVERSE_BT_OFFSET : Nat
  CONFIG_ESP_MAC_ADDR_UNIVERSE_ETH : Bool

/-- The fuse driver and ROM routine that `mac_addr.c` calls but does not define,
as far as the factory MAC is concerned. -/
structure Efuse where
  /-- The call `esp_efuse_read_field_blob(ESP_EFUSE_MAC_FACTORY, mac, 48)`: from the
  prior content of `mac` to the return code and the content of `mac` afterwards. -/
  read_MAC_FACTORY : Mac → esp_err_t × Mac
  /-- The byte held by `efuse_crc` after
  `esp_efuse_read_field_blob(ESP_EFUSE_MAC_FACTORY_CRC, &efuse_crc, 8)`; the
  code discards the return code of that call. -/
  MAC_FACTORY_CRC : Byte
  /-- The ROM routine `esp_rom_efuse_mac_address_crc8(mac, 6)`. -/
  esp_rom_efuse_mac_address_crc8 : Mac → Byte

/-! ## The base MAC store -/

/-- Source `esp_base_mac_addr_set`: the return code and the content of the global
`base_mac_addr` after the call. -/
def esp_base_mac_addr_set (base_mac_addr : Mac) (mac : Option Mac) : esp_err_t × Mac :=
  match mac with
  | none => (ESP_ERR_INVALID_ARG, base_mac_addr)
  | some mac =>
    if mac.b0.val &&& 0x01 ≠ 0 then (ESP_ERR_INVALID_ARG, base_mac_addr)
    else (ESP_OK, mac)

/-- Source `esp_base_mac_addr_get`: the return code and the content of the output
buffer `mac` after the call. The function has no assignment to the global. -/
def esp_base_mac_addr_get (base_mac_addr : Mac) (mac : Mac) : esp_err_t × Mac :=
  if memcmp base_mac_addr.bytes null_mac.bytes 6 = 0 then (ESP_ERR_INVALID_MAC, mac)
  else (ESP_OK, base_mac_addr)

/-! ## The factory MAC -/

/-- Source `esp_efuse_mac_get_default`: the return code and the content of `mac`
after the call. -/
def esp_efuse_mac_get_default (cfg : Config) (ef : Efuse) (mac : Mac) : esp_err_t × Mac :=
  let r := ef.read_MAC_FACTORY mac
  let err := r.1
  let mac := r.2
  if err ≠ ESP_OK then (err, mac)
  else if cfg.CONFIG_IDF_TARGET = idf_target.ESP32 then
    let efuse_crc := ef.MAC_FACTORY_CRC
    let calc_crc := ef.esp_rom_efuse_mac_address_crc8 mac
    if efuse_crc ≠ calc_crc then
      let mac_high := ((mac.b0.val <<< 8) % 2 ^ 32) ||| mac.b1.val
      let mac_low := ((mac.b2.val <<< 24) % 2 ^ 32) ||| ((mac.b3.val <<< 16) % 2 ^ 32)
        ||| ((mac.b4.val <<< 8) % 2 ^ 32) ||| mac.b5.val
      if (mac_high &&& 0xFFFF) = 0x18fe ∧ mac_low ≥ 0x346a85c7 ∧ mac_low ≤ 0x346a85f8 then
        (ESP_OK, mac)
      else if cfg.CONFIG_ESP_MAC_IGNORE_MAC_CRC_ERROR then (ESP_OK, mac)
      else (ESP_ERR_INVALID_CRC, mac)
    else (ESP_OK, mac)
  else (ESP_OK, mac)

/-! ## The custom MAC -/

/-- The fuse driver and ROM routine as far as `esp_efuse_mac_get_custom` uses them.
A buffer reached through a pointer is the list of the bytes from that pointer
on. -/
structure EfuseCustom where
  /-- The value of `esp_efuse_get_field_size(ESP_EFUSE_USER_DATA_MAC_CUSTOM)`, in
  bits. -/
  field_size_USER_DATA_MAC_CUSTOM : Nat
  /-- The call `esp_efuse_read_field_blob(ESP_EFUSE_USER_DATA_MAC_CUSTOM, mac, bits)`:
  from the requested number of bits and the prior content of `mac` to the return
  code and the content of `mac` afterwards. -/
  read_USER_DATA_MAC_CUSTOM : Nat → List Byte → esp_err_t × List Byte
  /-- The call `esp_efuse_read_field_blob(ESP_EFUSE_MAC_EXT, &mac[6], bits)`: from
  the requested number of bits and the prior content from `mac[6]` on to the
  return code and the content from `mac[6]` on afterwards. -/
  read_MAC_EXT : Nat → List Byte → esp_err_t × List Byte
  /-- The byte held by `version` after
  `esp_efuse_read_field_blob(ESP_EFUSE_MAC_CUSTOM_VER, &version, 8)`; the code
  discards the return code of that call. -/
  MAC_CUSTOM_VER : Byte
  /-- The content of `mac` after
  `esp_efuse_read_field_blob(ESP_EFUSE_MAC_CUSTOM, mac, 48)`, from its prior
  content; the code discards the return code of that call. -/
  read_MAC_CUSTOM : List Byte → List Byte
  /-- The byte held by `efuse_crc` after
  `esp_efuse_read_field_blob(ESP_EFUSE_MAC_CUSTOM_CRC, &efuse_crc, 8)`. -/
  MAC_CUSTOM_CRC : Byte
  /-- The ROM routine `esp_rom_efuse_mac_address_crc8(mac, len)`. -/
  esp_rom_efuse_mac_address_crc8 : List Byte → Nat → Byte

/-- Subtraction of two `size_t` values (32 bits wide on these chips), both below
`2 ^ 32`: the difference modulo `2 ^ 32`. -/
def sub_size_t (a b : Nat) : Nat := (a + 2 ^ 32 - b) % 2 ^ 32

/-- Source `esp_efuse_mac_get_custom`: the return code and the content of `mac`
after the call, or `none` when the `assert` on the field size fails.
`ESP_MAC_ADDRESS_LEN` is the value of the constant of that name. -/
def esp_efuse_mac_get_custom (cfg : Config) (ESP_MAC_ADDRESS_LEN : Nat) (ef : EfuseCustom)
    (mac : List Byte) : Option (esp_err_t × List Byte) :=
  if cfg.CONFIG_IDF_TARGET ≠ idf_target.ESP32 then
    let size_bits := ef.field_size_USER_DATA_MAC_CUSTOM
    if size_bits % 8 ≠ 0 then none
    else
      let r := ef.read_USER_DATA_MAC_CUSTOM size_bits mac
      let err := r.1
      let mac := r.2
      if err ≠ ESP_OK then some (err, mac)
      else
        let size := size_bits / 8
        if mac.head? = some 0 ∧ memcmp mac (mac.drop 1) (sub_size_t size 1) = 0 then
          some (ESP_ERR_INVALID_MAC, mac)
        else if ESP_MAC_ADDRESS_LEN = 8 then
          let e := ef.read_MAC_EXT (sub_size_t ESP_MAC_ADDRESS_LEN size) (mac.drop 6)
          let err := e.1
          let mac := mac.take 6 ++ e.2
          if err ≠ ESP_OK then some (err, mac)
          else some (ESP_OK, mac)
        else some (ESP_OK, mac)
  else
    let version := ef.MAC_CUSTOM_VER
    if version ≠ 1 then some (ESP_ERR_INVALID_VERSION, mac)
    else
      let mac := ef.read_MAC_CUSTOM mac
      let efuse_crc := ef.MAC_CUSTOM_CRC
      let calc_crc := ef.esp_rom_efuse_mac_address_crc8 mac 6
      if efuse_crc ≠ calc_crc then
        if cfg.CONFIG_ESP_MAC_IGNORE_MAC_CRC_ERROR then some (ESP_OK, mac)
        else some (ESP_ERR_INVALID_CRC, mac)
      else some (ESP_OK, mac)

/-! ## Derivation of a locally administered address -/

/-- The `for (idx = 0; idx < 64; idx++)` loop of `esp_derive_local_mac`, entered at
`idx` with `fuel` iterations allowed; it yields the buffer and the value of
`idx` on leaving the loop. -/
def derive_loop (universal_mac : Mac) : Nat → Mac → Nat → Mac × Nat
  | 0, local_mac, idx => (local_mac, idx)
  | fuel + 1, local_mac, idx =>
    if idx < 64 then
      let local_mac := { local_mac with b0 := u8 (universal_mac.b0.val ||| 0x02) }
      let local_mac := { local_mac with b0 := u8 (local_mac.b0.val ^^^ (idx <<< 2)) }
      if memcmp local_mac.bytes universal_mac.bytes 6 ≠ 0 then (local_mac, idx)
      else derive_loop universal_mac fuel local_mac (idx + 1)
    else (local_mac, idx)

/-- Source `esp_derive_local_mac`: the return code and the content of `local_mac`
after the call. The loop runs at most 64 times, so 64 units of fuel let it run
to its own exit. -/
def esp_derive_local_mac (local_mac : Option Mac) (universal_mac : Option Mac) :
    esp_err_t × Option Mac :=
  match local_mac, universal_mac with
  | some _, some universal_mac =>
    let local_mac := universal_mac
    (ESP_OK, some (derive_loop universal_mac 64 local_mac 0).1)
  | local_mac, _ => (ESP_ERR_INVALID_ARG, local_mac)

/-! ## The per-interface resolver -/

/-- The `switch (type)` of `esp_read_mac`: the content of `mac` after it, from the
working base `efuse_mac` and the prior content of `mac`. -/
def read_mac_switch (cfg : Config) (efuse_mac : Mac) (mac : Mac) (type : Int) : Mac :=
  if type = ESP_MAC_WIFI_STA then efuse_mac
  else if type = ESP_MAC_WIFI_SOFTAP then
    if cfg.CONFIG_ESP_MAC_ADDR_UNIVERSE_WIFI_AP then
      let mac := efuse_mac
      if cfg.CONFIG_IDF_TARGET = idf_target.ESP32S2 then
        let mac_begin : Mac := ⟨0x7c, 0xdf, 0xa1, 0x00, 0x30, 0x00⟩
        let mac_end : Mac := ⟨0x7c, 0xdf, 0xa1, 0x00, 0x5f, 0xff⟩
        if memcmp mac.bytes mac_begin.bytes 6 ≥ 0 ∧ memcmp mac_end.bytes mac.bytes 6 ≥ 0 then
          let mac := { mac with b3 := u8 (mac.b3.val + 0x02) }
          { mac with b4 := u8 (mac.b4.val + 0xd0) }
        else { mac with b5 := u8 (mac.b5.val + 1) }
      else { mac with b5 := u8 (mac.b5.val + 1) }
    else
      match (esp_derive_local_mac (some mac) (some efuse_mac)).2 with
      | some out => out
      | none => mac
  else if type = ESP_MAC_BT then
    if cfg.CONFIG_ESP_MAC_ADDR_UNIVERSE_BT then
      let mac := efuse_mac
      { mac with b5 := u8 (mac.b5.val + cfg.CONFIG_ESP_MAC_ADDR_UNIVERSE_BT_OFFSET) }
    else mac
  else if type = ESP_MAC_ETH then
    if cfg.CONFIG_ESP_MAC_ADDR_UNIVERSE_ETH then
      let mac := efuse_mac
      { mac with b5 := u8 (mac.b5.val + 3) }
    else
      let efuse_mac := { efuse_mac with b5 := u8 (efuse_mac.b5.val + 1) }
      match (esp_derive_local_mac (some mac) (some efuse_mac)).2 with
      | some out => out
      | none => mac
  else mac

/-- Source `esp_read_mac`: the return code, the content of the global
`base_mac_addr` after the call and the content of the output buffer `mac` after
the call. `efuse_mac` is the content of the uninitialised local array of that
name at entry. -/
def esp_read_mac (cfg : Config) (ef : Efuse) (base_mac_addr : Mac) (efuse_mac : Mac)
    (mac : Option Mac) (type : Int) : esp_err_t × Mac × Option Mac :=
  match mac with
  | none => (ESP_ERR_INVALID_ARG, base_mac_addr, none)
  | some mac =>
    if type < ESP_MAC_WIFI_STA ∨ type > ESP_MAC_ETH then
      (ESP_ERR_INVALID_ARG, base_mac_addr, some mac)
    else
      let g := esp_base_mac_addr_get base_mac_addr efuse_mac
      if g.1 ≠ ESP_OK then
        let d := esp_efuse_mac_get_default cfg ef g.2
        let s := esp_base_mac_addr_set base_mac_addr (some d.2)
        (ESP_OK, s.2, some (read_mac_switch cfg d.2 mac type))
      else
        (ESP_OK, base_mac_addr, some (read_mac_switch cfg g.2 mac type))

/-! ## Call sequences on the base MAC store -/

/-- A call on the base MAC store: `esp_base_mac_addr_set` with its argument, or
`esp_base_mac_addr_get` with the prior content of its output buffer. -/
inductive StoreCall where
  | set (mac : Option Mac)
  | get (mac : Mac)

/-- One call on the store: its return code and the content of `base_mac_addr`
after it. -/
def exec_call (base_mac_addr : Mac) : StoreCall → esp_err_t × Mac
  | StoreCall.set mac => esp_base_mac_addr_set base_mac_addr mac
  | StoreCall.get mac => ((esp_base_mac_addr_get base_mac_addr mac).1, base_mac_addr)

/-- The content of `base_mac_addr` after a sequence of calls. -/
def run_calls (base_mac_addr : Mac) : List StoreCall → Mac
  | [] => base_mac_addr
  | c :: cs => run_calls (exec_call base_mac_addr c).2 cs

/-- Whether every `esp_base_mac_addr_set` call of a sequence returned an error. -/
def sets_all_failed (base_mac_addr : Mac) : List StoreCall → Bool
  | [] => true
  | StoreCall.set mac :: cs =>
    decide ((esp_base_mac_addr_set base_mac_addr mac).1 ≠ ESP_OK)
      && sets_all_failed (esp_base_mac_addr_set base_mac_addr mac).2 cs
  | StoreCall.get _ :: cs => sets_all_failed base_mac_addr cs

/-! ## Vocabulary of the properties -/

/-- The range exempt from the CRC check, in the words of the specification:
bytes 0..1 read as a big-endian 16-bit value equal `0x18FE`, and bytes 2..5 read as
a big-endian 32-bit value lie in `[0x346A85C7, 0x346A85F8]`, both ends included. -/
def in_crc_exempt_range (a : Mac) : Prop :=
  a.b0.val * 2 ^ 8 + a.b1.val = 0x18fe ∧
  0x346a85c7 ≤ a.b2.val * 2 ^ 24 + a.b3.val * 2 ^ 16 + a.b4.val * 2 ^ 8 + a.b5.val ∧
  a.b2.val * 2 ^ 24 + a.b3.val * 2 ^ 16 + a.b4.val * 2 ^ 8 + a.b5.val ≤ 0x346a85f8

instance (a : Mac) : Decidable (in_crc_exempt_range a) := by
  unfold in_crc_exempt_range
  infer_instance

/-- An ESP32 build: CRC errors are not ignored, soft-AP and Ethernet use the
derived fallback, Bluetooth derivation is off. -/
def cfg_esp32_two : Config :=
  ⟨idf_target.ESP32, false, false, false, 2, false⟩

/-- An ESP32-S2 build with the soft-AP, Bluetooth (offset 2) and Ethernet
addresses all taken from the universal range. -/
def cfg_esp32s2_four : Config :=
  ⟨idf_target.ESP32S2, false, true, true, 2, true⟩

/-- A fuse driver whose factory-field read fails with `ESP_FAIL` and leaves the
buffer as it was. -/
def efuse_read_fails : Efuse :=
  ⟨fun mac => (ESP_FAIL, mac), 0x00, fun _ => 0x00⟩

/-- A fuse driver that delivers the factory address `24:0A:C4:00:00:10` with the
recorded CRC byte `0x00`, where the CRC routine computes `0x5A`. -/
def efuse_crc_mismatch : Efuse :=
  ⟨fun _ => (ESP_OK, ⟨0x24, 0x0a, 0xc4, 0x00, 0x00, 0x10⟩), 0x00, fun _ => 0x5a⟩

/-- A fuse driver that delivers the factory address `18:FE:34:6A:85:D0` with the
recorded CRC byte `0x00`, where the CRC routine computes `0x5A`. -/
def efuse_reserved_mismatch : Efuse :=
  ⟨fun _ => (ESP_OK, ⟨0x18, 0xfe, 0x34, 0x6a, 0x85, 0xd0⟩), 0x00, fun _ => 0x5a⟩

/-- The range of base addresses remapped for the soft-AP on ESP32-S2, as a range
of big-endian 48-bit values: `0x7CDFA1003000` to `0x7CDFA1005FFF`, both ends
included. -/
def in_softap_remap_range (b : Mac) : Prop :=
  0x7cdfa1003000 ≤ b.toNat ∧ b.toNat ≤ 0x7cdfa1005fff

instance (b : Mac) : Decidable (in_softap_remap_range b) := by
  unfold in_softap_remap_range
  infer_instance

/-- An ESP32-S2 build in which the soft-AP and Ethernet addresses use the derived
fallback and Bluetooth derivation is off. -/
def cfg_esp32s2_two : Config :=
  ⟨idf_target.ESP32S2, false, false, false, 2, false⟩

/-- An example of what the fuse driver delivers for a read of `bits` bits of a
field holding `content`: the low `bits` bits, least significant byte first, in
the first `(bits + 7) / 8` bytes of the destination, whose other bytes are left
as they were. -/
def read_low_bits (content bits : Nat) (dst : List Byte) : List Byte :=
  (List.range ((bits + 7) / 8)).map (fun i => u8 ((content % 2 ^ bits) >>> (8 * i)))
    ++ dst.drop ((bits + 7) / 8)

/-- A fuse driver with a 48-bit custom MAC field that is blank (all zero). -/
def efuse_custom_blank : EfuseCustom :=
  ⟨48, fun bits dst => (ESP_OK, read_low_bits 0 bits dst),
    fun bits dst => (ESP_OK, read_low_bits 0 bits dst), 0, fun dst => dst, 0, fun _ _ => 0⟩

/-- A fuse driver with a 48-bit custom MAC field holding `11:22:33:44:55:66` and a
16-bit extension field holding the bytes `EF BE`. -/
def efuse_custom_ext : EfuseCustom :=
  ⟨48, fun bits dst => (ESP_OK, read_low_bits 0x665544332211 bits dst),
    fun bits dst => (ESP_OK, read_low_bits 0xbeef bits dst), 0, fun dst => dst, 0, fun _ _ => 0⟩

/-- A fuse driver that delivers the blank factory address `00:00:00:00:00:00`. -/
def efuse_factory_blank : Efuse :=
  ⟨fun _ => (ESP_OK, null_mac), 0x00, fun _ => 0x00⟩

/-- A fuse driver that delivers the factory address `01:00:5E:00:00:01`, whose
multicast bit is set. -/
def efuse_factory_multicast : Efuse :=
  ⟨fun _ => (ESP_OK, ⟨0x01, 0x00, 0x5e, 0x00, 0x00, 0x01⟩), 0x00, fun _ => 0x00⟩

/-- A fuse driver that delivers the factory address `24:0A:C4:00:00:10`, with a
recorded CRC byte equal to the one the CRC routine computes. -/
def efuse_factory_good : Efuse :=
  ⟨fun _ => (ESP_OK, ⟨0x24, 0x0a, 0xc4, 0x00, 0x00, 0x10⟩), 0x5a, fun _ => 0x5a⟩

/-! ## Auxiliary facts -/

/-- Two bytes whose values have difference zero are equal. -/
theorem byte_eq_of_sub_eq_zero {a b : Byte} (h : (a.val : Int) - (b.val : Int) = 0) : a = b := by
  apply Fin.ext
  omega

/-- Six-byte `memcmp` is zero exactly on equal buffers. -/
theorem memcmp_bytes_eq_zero_iff (a b : Mac) : memcmp a.bytes b.bytes 6 = 0 ↔ a = b := by
  rcases a with ⟨a0, a1, a2, a3, a4, a5⟩
  rcases b with ⟨c0, c1, c2, c3, c4, c5⟩
  simp only [Mac.bytes, memcmp, Mac.mk.injEq]
  constructor
  · intro h
    split_ifs at h with h0 h1 h2 h3 h4 h5
    · exact ⟨h0, h1, h2, h3, h4, h5⟩
    · exact absurd (byte_eq_of_sub_eq_zero h) h5
    · exact absurd (byte_eq_of_sub_eq_zero h) h4
    · exact absurd (byte_eq_of_sub_eq_zero h) h3
    · exact absurd (byte_eq_of_sub_eq_zero h) h2
    · exact absurd (byte_eq_of_sub_eq_zero h) h1
    · exact absurd (byte_eq_of_sub_eq_zero h) h0
  · rintro ⟨h0, h1, h2, h3, h4, h5⟩
    simp [h0, h1, h2, h3, h4, h5]

set_option maxRecDepth 100000 in
/-- The test `mac[0] & 0x01` of `esp_base_mac_addr_set` reads bit 0. -/
theorem byte_and_one_ne_zero_iff : ∀ b : Byte, b.val &&& 0x01 ≠ 0 ↔ b.val.testBit 0 = true := by
  decide

set_option maxRecDepth 100000 in
/-- Byte-level facts about the two candidates the derivation loop tries. -/
theorem derive_byte_facts : ∀ b : Byte,
    (b.val &&& 0x02 = 0 → u8 ((u8 (b.val ||| 0x02)).val ^^^ (0 <<< 2)) ≠ b) ∧
    (b.val &&& 0x02 ≠ 0 → u8 ((u8 (b.val ||| 0x02)).val ^^^ (0 <<< 2)) = b) ∧
    u8 ((u8 (b.val ||| 0x02)).val ^^^ (1 <<< 2)) ≠ b ∧
    (u8 ((u8 (b.val ||| 0x02)).val ^^^ (0 <<< 2))).val.testBit 1 = true ∧
    (u8 ((u8 (b.val ||| 0x02)).val ^^^ (1 <<< 2))).val.testBit 1 = true := by
  decide

/-- The loop of `esp_derive_local_mac` on the copied buffer: it leaves at `idx = 0`
when bit 1 of byte 0 is clear and at `idx = 1` otherwise. -/
theorem derive_loop_eq (u : Mac) :
    derive_loop u 64 u 0 =
      if u.b0.val &&& 0x02 = 0
      then ({ u with b0 := u8 ((u8 (u.b0.val ||| 0x02)).val ^^^ (0 <<< 2)) }, 0)
      else ({ u with b0 := u8 ((u8 (u.b0.val ||| 0x02)).val ^^^ (1 <<< 2)) }, 1) := by
  obtain ⟨h0, h1, h2, -, -⟩ := derive_byte_facts u.b0
  rcases u with ⟨b0, b1, b2, b3, b4, b5⟩
  simp only at h0 h1 h2
  show derive_loop _ (63 + 1) _ 0 = _
  rw [derive_loop]
  simp only [memcmp_bytes_eq_zero_iff, ne_eq, Mac.mk.injEq, and_true]
  by_cases hb : b0.val &&& 0x02 = 0
  · have e : ¬ u8 (u8 (b0.val ||| 2)).val = b0 := by simpa using h0 hb
    simp [hb, e]
  · have e := h1 hb
    simp only [hb, e, if_false, if_true, not_true_eq_false]
    show derive_loop _ (62 + 1) _ 1 = _
    rw [derive_loop]
    have e2 : ¬ u8 ((u8 (b0.val ||| 2)).val ^^^ 4) = b0 := by simpa using h2
    simp [memcmp_bytes_eq_zero_iff, e2]

/-- A failed `esp_base_mac_addr_set` leaves the slot as it was. -/
theorem set_failed_slot (s : Mac) (mac : Option Mac)
    (h : (esp_base_mac_addr_set s mac).1 ≠ ESP_OK) : (esp_base_mac_addr_set s mac).2 = s := by
  cases mac with
  | none => rfl
  | some m =>
    by_cases hb : m.b0.val &&& 0x01 ≠ 0
    · simp only [esp_base_mac_addr_set, if_pos hb]
    · simp only [esp_base_mac_addr_set, if_neg hb] at h
      exact absurd rfl h

/-- A sequence of calls in which every set failed leaves the slot as it was. -/
theorem run_calls_of_sets_all_failed (calls : List StoreCall) :
    ∀ s : Mac, sets_all_failed s calls = true → run_calls s calls = s := by
  induction calls with
  | nil => intro s _; rfl
  | cons c cs ih =>
    intro s h
    cases c with
    | set mac =>
      simp only [sets_all_failed, Bool.and_eq_true, decide_eq_true_eq] at h
      have e := set_failed_slot s mac h.1
      simp only [run_calls, exec_call]
      rw [e] at h ⊢
      exact ih s h.2
    | get mac =>
      simp only [sets_all_failed] at h
      simp only [run_calls, exec_call]
      exact ih s h

/-! ## The base MAC store: round trip, rejection, unset state -/

/-- C1 (as stated, refuted): the all-zero address has bit 0 of byte 0 clear and
`esp_base_mac_addr_set` accepts it with `ESP_OK`, yet the following
`esp_base_mac_addr_get` returns `ESP_ERR_INVALID_MAC` and does not deliver it. -/
theorem base_mac_round_trip_fails_on_zero :
    null_mac.b0.val.testBit 0 = false ∧
    (esp_base_mac_addr_set ⟨0x02, 0, 0, 0, 0, 0x01⟩ (some null_mac)).1 = ESP_OK ∧
    esp_base_mac_addr_get (esp_base_mac_addr_set ⟨0x02, 0, 0, 0, 0, 0x01⟩ (some null_mac)).2
        ⟨9, 9, 9, 9, 9, 9⟩ = (ESP_ERR_INVALID_MAC, ⟨9, 9, 9, 9, 9, 9⟩) ∧
    ¬ (esp_base_mac_addr_get (esp_base_mac_addr_set ⟨0x02, 0, 0, 0, 0, 0x01⟩ (some null_mac)).2
        ⟨9, 9, 9, 9, 9, 9⟩ = (ESP_OK, null_mac)) := by
  decide

/-- C1 (amended): for every six-byte address `m` that has bit 0 of byte 0 clear and
is not all zero, and every prior slot content `s`, `esp_base_mac_addr_set` returns
`ESP_OK` and the following `esp_base_mac_addr_get` returns `ESP_OK` with exactly
`m`, whatever the output buffer held. -/
theorem base_mac_round_trip (m s out : Mac) (hu : m.b0.val.testBit 0 = false)
    (hz : m ≠ null_mac) :
    (esp_base_mac_addr_set s (some m)).1 = ESP_OK ∧
    esp_base_mac_addr_get (esp_base_mac_addr_set s (some m)).2 out = (ESP_OK, m) := by
  have hb : ¬ (m.b0.val &&& 0x01 ≠ 0) := by
    rw [byte_and_one_ne_zero_iff, hu]; simp
  have hs : esp_base_mac_addr_set s (some m) = (ESP_OK, m) := by
    simp only [esp_base_mac_addr_set, if_neg hb]
  refine ⟨by rw [hs], ?_⟩
  rw [hs]
  simp only [esp_base_mac_addr_get, memcmp_bytes_eq_zero_iff, if_neg hz]

/-- Witness of `base_mac_round_trip` at `AA:BB:CC:DD:EE:FF` over a slot that held
another address. -/
theorem base_mac_round_trip_witness :
    (esp_base_mac_addr_set ⟨0x02, 0, 0, 0, 0, 0x01⟩ (some ⟨0xaa, 0xbb, 0xcc, 0xdd, 0xee, 0xff⟩)).1
      = ESP_OK ∧
    esp_base_mac_addr_get
      (esp_base_mac_addr_set ⟨0x02, 0, 0, 0, 0, 0x01⟩ (some ⟨0xaa, 0xbb, 0xcc, 0xdd, 0xee, 0xff⟩)).2
      null_mac = (ESP_OK, ⟨0xaa, 0xbb, 0xcc, 0xdd, 0xee, 0xff⟩) :=
  base_mac_round_trip ⟨0xaa, 0xbb, 0xcc, 0xdd, 0xee, 0xff⟩ ⟨0x02, 0, 0, 0, 0, 0x01⟩ null_mac
    (by decide) (by decide)

/-- C2: for every six-byte address `m` with bit 0 of byte 0 set and every prior slot
content `s` (the all-zero unset state included), `esp_base_mac_addr_set` returns
`ESP_ERR_INVALID_ARG` and the slot is still `s`. -/
theorem base_mac_set_multicast_rejected (m s : Mac) (hm : m.b0.val.testBit 0 = true) :
    esp_base_mac_addr_set s (some m) = (ESP_ERR_INVALID_ARG, s) := by
  have hb : m.b0.val &&& 0x01 ≠ 0 := (byte_and_one_ne_zero_iff m.b0).2 hm
  simp only [esp_base_mac_addr_set, if_pos hb]

/-- Witness of `base_mac_set_multicast_rejected` at `01:00:5E:00:00:01` over the
unset slot. -/
theorem base_mac_set_multicast_rejected_witness :
    esp_base_mac_addr_set null_mac (some ⟨0x01, 0x00, 0x5e, 0x00, 0x00, 0x01⟩)
      = (ESP_ERR_INVALID_ARG, null_mac) :=
  base_mac_set_multicast_rejected ⟨0x01, 0x00, 0x5e, 0x00, 0x00, 0x01⟩ null_mac (by decide)

/-- C3: from the initial all-zero slot, after any finite sequence of
`esp_base_mac_addr_get` calls and `esp_base_mac_addr_set` calls that all failed,
`esp_base_mac_addr_get` returns `ESP_ERR_INVALID_MAC`, leaves the output buffer as
it was and leaves the slot (still all zero) unchanged. -/
theorem base_mac_get_unset (calls : List StoreCall) (out : Mac)
    (h : sets_all_failed null_mac calls = true) :
    esp_base_mac_addr_get (run_calls null_mac calls) out = (ESP_ERR_INVALID_MAC, out) ∧
    (exec_call (run_calls null_mac calls) (StoreCall.get out)).2 = run_calls null_mac calls ∧
    run_calls null_mac (calls ++ [StoreCall.get out]) = null_mac := by
  have e := run_calls_of_sets_all_failed calls null_mac h
  have h2 : sets_all_failed null_mac (calls ++ [StoreCall.get out]) = true := by
    have : ∀ (cs : List StoreCall) (s : Mac), sets_all_failed s cs = true →
        sets_all_failed s (cs ++ [StoreCall.get out]) = true := by
      intro cs
      induction cs with
      | nil => intro s _; rfl
      | cons c cs ih =>
        intro s hs
        cases c with
        | set mac =>
          simp only [List.cons_append, sets_all_failed, Bool.and_eq_true] at hs ⊢
          exact ⟨hs.1, ih _ hs.2⟩
        | get mac =>
          simp only [List.cons_append, sets_all_failed] at hs ⊢
          exact ih _ hs
    exact this calls null_mac h
  refine ⟨?_, rfl, run_calls_of_sets_all_failed _ null_mac h2⟩
  rw [e]
  simp [esp_base_mac_addr_get, memcmp_bytes_eq_zero_iff]

/-- Witness of `base_mac_get_unset`: a get, a set of a multicast address, a set of
`NULL` and another get, from the initial state. -/
theorem base_mac_get_unset_witness :
    esp_base_mac_addr_get
      (run_calls null_mac [StoreCall.get ⟨1, 2, 3, 4, 5, 6⟩,
        StoreCall.set (some ⟨0x01, 0x00, 0x5e, 0x00, 0x00, 0x01⟩), StoreCall.set none,
        StoreCall.get null_mac]) ⟨9, 9, 9, 9, 9, 9⟩
      = (ESP_ERR_INVALID_MAC, ⟨9, 9, 9, 9, 9, 9⟩) :=
  (base_mac_get_unset [StoreCall.get ⟨1, 2, 3, 4, 5, 6⟩,
    StoreCall.set (some ⟨0x01, 0x00, 0x5e, 0x00, 0x00, 0x01⟩), StoreCall.set none,
    StoreCall.get null_mac] ⟨9, 9, 9, 9, 9, 9⟩ (by decide)).1

/-! ## Derivation of a locally administered address -/

/-- C4: for every six-byte input `u` and every prior content of the output buffer,
`esp_derive_local_mac` returns `ESP_OK` with an output whose byte 0 has bit 1 set
and which is not equal to `u`. -/
theorem derive_local_mac_local_and_differs (u l : Mac) :
    ∃ out : Mac, esp_derive_local_mac (some l) (some u) = (ESP_OK, some out) ∧
      out.b0.val.testBit 1 = true ∧ out ≠ u := by
  obtain ⟨h0, -, h2, h3, h4⟩ := derive_byte_facts u.b0
  refine ⟨(derive_loop u 64 u 0).1, rfl, ?_⟩
  rw [derive_loop_eq]
  rcases u with ⟨b0, b1, b2, b3, b4, b5⟩
  by_cases hb : b0.val &&& 0x02 = 0
  · simp only [hb, if_true]
    refine ⟨h3, ?_⟩
    intro hc
    exact h0 hb (congrArg Mac.b0 hc)
  · simp only [hb, if_false]
    refine ⟨h4, ?_⟩
    intro hc
    exact h2 (congrArg Mac.b0 hc)

/-! ## The resolver on a stored base -/

/-- With a stored (non-zero) base and a valid type, `esp_read_mac` returns `ESP_OK`,
leaves the slot alone and runs the `switch` on the stored base. -/
theorem read_mac_of_stored (cfg : Config) (ef : Efuse) (b stack out : Mac) (type : Int)
    (hb : b ≠ null_mac) (h0 : ESP_MAC_WIFI_STA ≤ type) (h1 : type ≤ ESP_MAC_ETH) :
    esp_read_mac cfg ef b stack (some out) type
      = (ESP_OK, b, some (read_mac_switch cfg b out type)) := by
  have hr : ¬ (type < ESP_MAC_WIFI_STA ∨ type > ESP_MAC_ETH) := by
    simp only [ESP_MAC_WIFI_STA, ESP_MAC_ETH] at *
    omega
  have hg : esp_base_mac_addr_get b stack = (ESP_OK, b) := by
    simp only [esp_base_mac_addr_get, memcmp_bytes_eq_zero_iff, if_neg hb]
  simp only [esp_read_mac, if_neg hr, hg, ne_eq, not_true_eq_false, if_false]

/-- C5 (evaluation of the code at the failing inputs): with the slot unset,
`esp_efuse_mac_get_default` fails (with `ESP_FAIL` from the fuse read, or with
`ESP_ERR_INVALID_CRC` on an ESP32 whose recorded CRC is wrong), and `esp_read_mac`
for the station interface nevertheless returns `ESP_OK`; in the first case it
hands out the uninitialised content of its local buffer, in the second the
address that failed the check, which it also stores as base. -/
theorem read_mac_discards_default_error :
    (esp_efuse_mac_get_default cfg_esp32_two efuse_read_fails ⟨1, 2, 3, 4, 5, 6⟩).1 = ESP_FAIL ∧
    esp_read_mac cfg_esp32_two efuse_read_fails null_mac ⟨1, 2, 3, 4, 5, 6⟩ (some null_mac)
        ESP_MAC_WIFI_STA = (ESP_OK, null_mac, some ⟨1, 2, 3, 4, 5, 6⟩) ∧
    (esp_efuse_mac_get_default cfg_esp32_two efuse_crc_mismatch ⟨1, 2, 3, 4, 5, 6⟩).1
        = ESP_ERR_INVALID_CRC ∧
    esp_read_mac cfg_esp32_two efuse_crc_mismatch null_mac ⟨1, 2, 3, 4, 5, 6⟩ (some null_mac)
        ESP_MAC_WIFI_STA
      = (ESP_OK, ⟨0x24, 0x0a, 0xc4, 0x00, 0x00, 0x10⟩, some ⟨0x24, 0x0a, 0xc4, 0x00, 0x00, 0x10⟩) := by
  decide

/-- C6: for every stored non-zero base `b` and every prior content of the output
buffer, `esp_read_mac` with `ESP_MAC_WIFI_STA` returns `ESP_OK` and the output
equals `b` byte for byte. -/
theorem read_mac_sta (cfg : Config) (ef : Efuse) (b stack out : Mac) (hb : b ≠ null_mac) :
    esp_read_mac cfg ef b stack (some out) ESP_MAC_WIFI_STA = (ESP_OK, b, some b) := by
  rw [read_mac_of_stored cfg ef b stack out ESP_MAC_WIFI_STA hb (by decide) (by decide)]
  simp only [read_mac_switch, if_true]

/-- Witness of `read_mac_sta` at the base `AA:BB:CC:DD:EE:FF`. -/
theorem read_mac_sta_witness :
    esp_read_mac cfg_esp32_two efuse_read_fails ⟨0xaa, 0xbb, 0xcc, 0xdd, 0xee, 0xff⟩
        ⟨1, 2, 3, 4, 5, 6⟩ (some ⟨9, 9, 9, 9, 9, 9⟩) ESP_MAC_WIFI_STA
      = (ESP_OK, ⟨0xaa, 0xbb, 0xcc, 0xdd, 0xee, 0xff⟩, some ⟨0xaa, 0xbb, 0xcc, 0xdd, 0xee, 0xff⟩) :=
  read_mac_sta cfg_esp32_two efuse_read_fails ⟨0xaa, 0xbb, 0xcc, 0xdd, 0xee, 0xff⟩
    ⟨1, 2, 3, 4, 5, 6⟩ ⟨9, 9, 9, 9, 9, 9⟩ (by decide)

/-- C7 (evaluation of the code at the failing input): with
`CONFIG_ESP_MAC_ADDR_UNIVERSE_BT` off and the stored base `AA:BB:CC:DD:EE:FF`,
`esp_read_mac` with `ESP_MAC_BT` returns `ESP_OK` although the `ESP_MAC_BT` case
has written nothing: the output buffer, which held `09:09:09:09:09:09`, still
holds that and not the base. -/
theorem read_mac_bt_disabled_not_base :
    cfg_esp32_two.CONFIG_ESP_MAC_ADDR_UNIVERSE_BT = false ∧
    esp_read_mac cfg_esp32_two efuse_read_fails ⟨0xaa, 0xbb, 0xcc, 0xdd, 0xee, 0xff⟩
        ⟨1, 2, 3, 4, 5, 6⟩ (some ⟨9, 9, 9, 9, 9, 9⟩) ESP_MAC_BT
      = (ESP_OK, ⟨0xaa, 0xbb, 0xcc, 0xdd, 0xee, 0xff⟩, some ⟨9, 9, 9, 9, 9, 9⟩) ∧
    (esp_read_mac cfg_esp32_two efuse_read_fails ⟨0xaa, 0xbb, 0xcc, 0xdd, 0xee, 0xff⟩
        ⟨1, 2, 3, 4, 5, 6⟩ (some ⟨9, 9, 9, 9, 9, 9⟩) ESP_MAC_BT).2.2
      ≠ some ⟨0xaa, 0xbb, 0xcc, 0xdd, 0xee, 0xff⟩ := by
  decide

/-- The empty `ESP_MAC_BT` case in general: with `CONFIG_ESP_MAC_ADDR_UNIVERSE_BT`
off, for every stored non-zero base `b` and every prior content `out` of the
output buffer, `esp_read_mac` returns `ESP_OK` and the buffer still holds `out`. -/
theorem read_mac_bt_case_unwritten (cfg : Config) (ef : Efuse) (b stack out : Mac)
    (hc : cfg.CONFIG_ESP_MAC_ADDR_UNIVERSE_BT = false) (hb : b ≠ null_mac) :
    esp_read_mac cfg ef b stack (some out) ESP_MAC_BT = (ESP_OK, b, some out) := by
  rw [read_mac_of_stored cfg ef b stack out ESP_MAC_BT hb (by decide) (by decide)]
  have e1 : ¬ (ESP_MAC_BT = ESP_MAC_WIFI_STA) := by decide
  have e2 : ¬ (ESP_MAC_BT = ESP_MAC_WIFI_SOFTAP) := by decide
  simp [read_mac_switch, e1, e2, hc]

/-- C8 (as stated, refuted): on ESP32-S2 with the universal soft-AP address and the
stored base `7C:DF:A1:00:40:00`, the output of `esp_read_mac` with
`ESP_MAC_WIFI_SOFTAP` is not `7E:DF:A1:02:10:00`; byte 0 is left at `0x7C`. -/
theorem read_mac_softap_remap_not_7e :
    cfg_esp32s2_four.CONFIG_IDF_TARGET = idf_target.ESP32S2 ∧
    cfg_esp32s2_four.CONFIG_ESP_MAC_ADDR_UNIVERSE_WIFI_AP = true ∧
    (esp_read_mac cfg_esp32s2_four efuse_read_fails ⟨0x7c, 0xdf, 0xa1, 0x00, 0x40, 0x00⟩
        ⟨1, 2, 3, 4, 5, 6⟩ (some null_mac) ESP_MAC_WIFI_SOFTAP).2.2
      ≠ some ⟨0x7e, 0xdf, 0xa1, 0x02, 0x10, 0x00⟩ := by
  decide

/-- C8 (amended): on ESP32-S2 with `CONFIG_ESP_MAC_ADDR_UNIVERSE_WIFI_AP` on and the
stored base `7C:DF:A1:00:40:00`, `esp_read_mac` with `ESP_MAC_WIFI_SOFTAP` returns
`ESP_OK` and produces `7C:DF:A1:02:10:00` (the base plus `0x1D000`), whatever the
other options, the fuse content and the prior buffers. -/
theorem read_mac_softap_remap_example (cfg : Config) (ef : Efuse) (stack out : Mac)
    (ht : cfg.CONFIG_IDF_TARGET = idf_target.ESP32S2)
    (ha : cfg.CONFIG_ESP_MAC_ADDR_UNIVERSE_WIFI_AP = true) :
    esp_read_mac cfg ef ⟨0x7c, 0xdf, 0xa1, 0x00, 0x40, 0x00⟩ stack (some out) ESP_MAC_WIFI_SOFTAP
      = (ESP_OK, ⟨0x7c, 0xdf, 0xa1, 0x00, 0x40, 0x00⟩, some ⟨0x7c, 0xdf, 0xa1, 0x02, 0x10, 0x00⟩) := by
  rw [read_mac_of_stored cfg ef _ stack out ESP_MAC_WIFI_SOFTAP (by decide) (by decide)
    (by decide)]
  have e1 : ¬ (ESP_MAC_WIFI_SOFTAP = ESP_MAC_WIFI_STA) := by decide
  simp only [read_mac_switch, if_neg e1, if_true, ht, ha]
  decide

/-- Witness of `read_mac_softap_remap_example` on a build with all four addresses
universal. -/
theorem read_mac_softap_remap_example_witness :
    esp_read_mac cfg_esp32s2_four efuse_read_fails ⟨0x7c, 0xdf, 0xa1, 0x00, 0x40, 0x00⟩
        ⟨1, 2, 3, 4, 5, 6⟩ (some null_mac) ESP_MAC_WIFI_SOFTAP
      = (ESP_OK, ⟨0x7c, 0xdf, 0xa1, 0x00, 0x40, 0x00⟩, some ⟨0x7c, 0xdf, 0xa1, 0x02, 0x10, 0x00⟩) :=
  read_mac_softap_remap_example cfg_esp32s2_four efuse_read_fails ⟨1, 2, 3, 4, 5, 6⟩ null_mac
    rfl rfl

/-! ## The factory MAC and its CRC -/

/-- The expression `mac_high & 0xFFFF` of the code is the big-endian value of
bytes 0..1. -/
theorem mac_high_eq (x y : Byte) :
    (((x.val <<< 8) % 2 ^ 32) ||| y.val) &&& 0xFFFF = x.val * 2 ^ 8 + y.val := by
  have hx := x.isLt
  have hy := y.isLt
  have e1 : (x.val <<< 8) % 2 ^ 32 = 2 ^ 8 * x.val := by
    rw [Nat.shiftLeft_eq, Nat.mod_eq_of_lt (by omega)]; omega
  have e2 : 2 ^ 8 * x.val ||| y.val = 2 ^ 8 * x.val + y.val :=
    (Nat.mul_add_lt_is_or (i := 8) (by omega) x.val).symm
  rw [e1, e2]
  have e3 : (0xFFFF : Nat) = 2 ^ 16 - 1 := by norm_num
  rw [e3, Nat.and_pow_two_sub_one_eq_mod, Nat.mod_eq_of_lt (by omega)]
  omega

/-- The expression `mac_low` of the code is the big-endian value of bytes 2..5. -/
theorem mac_low_eq (a b c d : Byte) :
    ((a.val <<< 24) % 2 ^ 32) ||| ((b.val <<< 16) % 2 ^ 32) ||| ((c.val <<< 8) % 2 ^ 32) ||| d.val
      = a.val * 2 ^ 24 + b.val * 2 ^ 16 + c.val * 2 ^ 8 + d.val := by
  have ha := a.isLt
  have hb := b.isLt
  have hc := c.isLt
  have hd := d.isLt
  have e1 : (a.val <<< 24) % 2 ^ 32 = 2 ^ 24 * a.val := by
    rw [Nat.shiftLeft_eq, Nat.mod_eq_of_lt (by omega)]; omega
  have e2 : (b.val <<< 16) % 2 ^ 32 = b.val * 2 ^ 16 := by
    rw [Nat.shiftLeft_eq, Nat.mod_eq_of_lt (by omega)]
  have e3 : (c.val <<< 8) % 2 ^ 32 = c.val * 2 ^ 8 := by
    rw [Nat.shiftLeft_eq, Nat.mod_eq_of_lt (by omega)]
  rw [e1, e2, e3]
  have s1 : 2 ^ 24 * a.val ||| b.val * 2 ^ 16 = 2 ^ 16 * (a.val * 2 ^ 8 + b.val) := by
    rw [← Nat.mul_add_lt_is_or (i := 24) (by omega) a.val]; omega
  have s2 : 2 ^ 16 * (a.val * 2 ^ 8 + b.val) ||| c.val * 2 ^ 8
      = 2 ^ 8 * (a.val * 2 ^ 16 + b.val * 2 ^ 8 + c.val) := by
    rw [← Nat.mul_add_lt_is_or (i := 16) (by omega) (a.val * 2 ^ 8 + b.val)]; omega
  have s3 : 2 ^ 8 * (a.val * 2 ^ 16 + b.val * 2 ^ 8 + c.val) ||| d.val
      = a.val * 2 ^ 24 + b.val * 2 ^ 16 + c.val * 2 ^ 8 + d.val := by
    rw [← Nat.mul_add_lt_is_or (i := 8) (by omega) (a.val * 2 ^ 16 + b.val * 2 ^ 8 + c.val)]
    omega
  rw [s1, s2, s3]

/-- On ESP32 after a successful factory-field read delivering `a`,
`esp_efuse_mac_get_default` returns `ESP_ERR_INVALID_CRC` when the recorded CRC is
wrong, `a` is outside the exempt range and CRC errors are not ignored, and
`ESP_OK` otherwise; the buffer holds `a` either way. -/
theorem get_default_esp32 (cfg : Config) (ef : Efuse) (buf a : Mac)
    (ht : cfg.CONFIG_IDF_TARGET = idf_target.ESP32)
    (hr : ef.read_MAC_FACTORY buf = (ESP_OK, a)) :
    esp_efuse_mac_get_default cfg ef buf =
      if ef.MAC_FACTORY_CRC ≠ ef.esp_rom_efuse_mac_address_crc8 a ∧ ¬ in_crc_exempt_range a
          ∧ cfg.CONFIG_ESP_MAC_IGNORE_MAC_CRC_ERROR = false
      then (ESP_ERR_INVALID_CRC, a) else (ESP_OK, a) := by
  have hx : in_crc_exempt_range a ↔
      (a.b0.val * 2 ^ 8 + a.b1.val = 0x18fe ∧
        a.b2.val * 2 ^ 24 + a.b3.val * 2 ^ 16 + a.b4.val * 2 ^ 8 + a.b5.val ≥ 0x346a85c7 ∧
        a.b2.val * 2 ^ 24 + a.b3.val * 2 ^ 16 + a.b4.val * 2 ^ 8 + a.b5.val ≤ 0x346a85f8) :=
    Iff.rfl
  simp only [esp_efuse_mac_get_default, hr, ht, ne_eq, not_true_eq_false, if_false, if_true,
    mac_high_eq, mac_low_eq, ← hx]
  by_cases hc : ef.MAC_FACTORY_CRC = ef.esp_rom_efuse_mac_address_crc8 a
  · simp only [hc, not_true_eq_false, false_and, if_false]
  · by_cases hr2 : in_crc_exempt_range a
    · simp only [hc, hr2, not_false_eq_true, not_true_eq_false, false_and, and_false, if_true,
        if_false]
    · cases hi : cfg.CONFIG_ESP_MAC_IGNORE_MAC_CRC_ERROR
      · simp only [hc, hr2, not_false_eq_true, and_self, if_true, if_false, Bool.false_eq_true]
      · simp only [hc, hr2, not_false_eq_true, if_true, if_false, Bool.true_eq_false, and_false]

set_option maxRecDepth 100000 in
/-- Flipping one of the eight bits of a byte changes the byte. -/
theorem byte_flip_bit_ne : ∀ (c : Byte) (k : Fin 8), u8 (c.val ^^^ (1 <<< k.val)) ≠ c := by
  decide

/-- C9: on ESP32 with CRC errors not ignored, for every factory address `a` that the
fuse read delivers with success and that lies in the exempt range (bytes 0..1 equal
`0x18FE`, bytes 2..5 as a big-endian value in `[0x346A85C7, 0x346A85F8]`), and for
every recorded CRC byte `crc` and every CRC routine, `esp_efuse_mac_get_default`
returns `ESP_OK` with `a`. -/
theorem get_default_exempt_range_accepted (cfg : Config) (read : Mac → esp_err_t × Mac)
    (crc : Byte) (crc8 : Mac → Byte) (buf a : Mac)
    (ht : cfg.CONFIG_IDF_TARGET = idf_target.ESP32)
    (_hi : cfg.CONFIG_ESP_MAC_IGNORE_MAC_CRC_ERROR = false)
    (hr : read buf = (ESP_OK, a)) (ha : in_crc_exempt_range a) :
    esp_efuse_mac_get_default cfg ⟨read, crc, crc8⟩ buf = (ESP_OK, a) := by
  rw [get_default_esp32 cfg ⟨read, crc, crc8⟩ buf a ht hr]
  simp [ha]

/-- Witness of `get_default_exempt_range_accepted` at `18:FE:34:6A:85:D0` with a
recorded CRC byte that differs from the computed one. -/
theorem get_default_exempt_range_accepted_witness :
    efuse_reserved_mismatch.MAC_FACTORY_CRC
      ≠ efuse_reserved_mismatch.esp_rom_efuse_mac_address_crc8 ⟨0x18, 0xfe, 0x34, 0x6a, 0x85, 0xd0⟩ ∧
    esp_efuse_mac_get_default cfg_esp32_two efuse_reserved_mismatch null_mac
      = (ESP_OK, ⟨0x18, 0xfe, 0x34, 0x6a, 0x85, 0xd0⟩) :=
  ⟨by decide,
   get_default_exempt_range_accepted cfg_esp32_two efuse_reserved_mismatch.read_MAC_FACTORY
    0x00 efuse_reserved_mismatch.esp_rom_efuse_mac_address_crc8 null_mac
    ⟨0x18, 0xfe, 0x34, 0x6a, 0x85, 0xd0⟩ rfl rfl rfl (by decide)⟩

/-- C10: on ESP32 with CRC errors not ignored and a successful factory-field read
delivering `a`, for every recorded CRC byte `crc`, `esp_efuse_mac_get_default`
returns `ESP_ERR_INVALID_CRC` if and only if `crc` differs from the CRC-8 computed
over `a` and `a` is outside the exempt range, and returns `ESP_OK` with `a`
otherwise. In particular, for `a` outside the exempt range the correct CRC byte is
accepted and the correct byte with any one of its eight bits flipped yields
`ESP_ERR_INVALID_CRC`. -/
theorem get_default_crc_error_iff (cfg : Config) (read : Mac → esp_err_t × Mac)
    (crc8 : Mac → Byte) (buf a : Mac)
    (ht : cfg.CONFIG_IDF_TARGET = idf_target.ESP32)
    (hi : cfg.CONFIG_ESP_MAC_IGNORE_MAC_CRC_ERROR = false)
    (hr : read buf = (ESP_OK, a)) :
    (∀ crc : Byte,
      ((esp_efuse_mac_get_default cfg ⟨read, crc, crc8⟩ buf).1 = ESP_ERR_INVALID_CRC
        ↔ (crc ≠ crc8 a ∧ ¬ in_crc_exempt_range a)) ∧
      (¬ (crc ≠ crc8 a ∧ ¬ in_crc_exempt_range a) →
        esp_efuse_mac_get_default cfg ⟨read, crc, crc8⟩ buf = (ESP_OK, a))) ∧
    (¬ in_crc_exempt_range a →
      esp_efuse_mac_get_default cfg ⟨read, crc8 a, crc8⟩ buf = (ESP_OK, a) ∧
      ∀ k : Nat, k < 8 →
        (esp_efuse_mac_get_default cfg ⟨read, u8 ((crc8 a).val ^^^ (1 <<< k)), crc8⟩ buf).1
          = ESP_ERR_INVALID_CRC) := by
  have key : ∀ crc : Byte, esp_efuse_mac_get_default cfg ⟨read, crc, crc8⟩ buf =
      if crc ≠ crc8 a ∧ ¬ in_crc_exempt_range a then (ESP_ERR_INVALID_CRC, a)
      else (ESP_OK, a) := by
    intro crc
    rw [get_default_esp32 cfg ⟨read, crc, crc8⟩ buf a ht hr]
    simp [hi]
  refine ⟨?_, ?_⟩
  · intro crc
    rw [key crc]
    by_cases hc : crc ≠ crc8 a ∧ ¬ in_crc_exempt_range a
    · rw [if_pos hc]
      exact ⟨⟨fun _ => hc, fun _ => rfl⟩, fun hn => absurd hc hn⟩
    · rw [if_neg hc]
      exact ⟨⟨fun h => esp_err_t.noConfusion h, fun h => absurd h hc⟩, fun _ => rfl⟩
  · intro hx
    refine ⟨?_, ?_⟩
    · rw [key]
      simp
    · intro k hk
      rw [key]
      have hne : u8 ((crc8 a).val ^^^ (1 <<< k)) ≠ crc8 a := byte_flip_bit_ne (crc8 a) ⟨k, hk⟩
      simp only [if_pos (And.intro hne hx)]

/-- Witness of `get_default_crc_error_iff` at the factory address
`24:0A:C4:00:00:10`, which is outside the exempt range, with the recorded CRC byte
`0x00` against the computed `0x5A`. -/
theorem get_default_crc_error_iff_witness :
    ¬ in_crc_exempt_range ⟨0x24, 0x0a, 0xc4, 0x00, 0x00, 0x10⟩ ∧
    (esp_efuse_mac_get_default cfg_esp32_two
        ⟨efuse_crc_mismatch.read_MAC_FACTORY, 0x00,
          efuse_crc_mismatch.esp_rom_efuse_mac_address_crc8⟩ null_mac).1 = ESP_ERR_INVALID_CRC :=
  ⟨by decide,
   ((get_default_crc_error_iff cfg_esp32_two efuse_crc_mismatch.read_MAC_FACTORY
      efuse_crc_mismatch.esp_rom_efuse_mac_address_crc8 null_mac
      ⟨0x24, 0x0a, 0xc4, 0x00, 0x00, 0x10⟩ rfl rfl rfl).1 0x00).1.2 (by decide)⟩

/-! ## Derivation: closed form and consequences -/

set_option maxRecDepth 100000 in
/-- The two candidates of the derivation loop in terms of the input byte, and what
they do to bits 0 and 1. -/
theorem derive_byte_forms : ∀ b : Byte,
    (b.val &&& 0x02 = 0 ↔ b.val.testBit 1 = false) ∧
    u8 ((u8 (b.val ||| 0x02)).val ^^^ (0 <<< 2)) = u8 (b.val ||| 0x02) ∧
    (b.val &&& 0x02 ≠ 0 → u8 ((u8 (b.val ||| 0x02)).val ^^^ (1 <<< 2)) = u8 (b.val ^^^ 0x04)) ∧
    (u8 (b.val ||| 0x02)).val.testBit 0 = b.val.testBit 0 ∧
    (u8 (b.val ^^^ 0x04)).val.testBit 0 = b.val.testBit 0 ∧
    (u8 (b.val ||| 0x02)).val.testBit 1 = true ∧
    (b.val.testBit 1 = true → (u8 (b.val ^^^ 0x04)).val.testBit 1 = true) ∧
    (b.val.testBit 1 = false → u8 (b.val ||| 0x02) ≠ b) ∧
    u8 (b.val ^^^ 0x04) ≠ b := by
  decide

/-- The loop of `esp_derive_local_mac` with any fuel of at least two: the same
exit as in `derive_loop_eq`, so the fuel does not decide the result. -/
theorem derive_loop_fuel (u : Mac) (fuel : Nat) :
    derive_loop u (fuel + 2) u 0 =
      if u.b0.val &&& 0x02 = 0
      then ({ u with b0 := u8 ((u8 (u.b0.val ||| 0x02)).val ^^^ (0 <<< 2)) }, 0)
      else ({ u with b0 := u8 ((u8 (u.b0.val ||| 0x02)).val ^^^ (1 <<< 2)) }, 1) := by
  obtain ⟨h0, h1, h2, -, -⟩ := derive_byte_facts u.b0
  rcases u with ⟨b0, b1, b2, b3, b4, b5⟩
  simp only at h0 h1 h2
  show derive_loop _ ((fuel + 1) + 1) _ 0 = _
  rw [derive_loop]
  simp only [memcmp_bytes_eq_zero_iff, ne_eq, Mac.mk.injEq, and_true]
  by_cases hb : b0.val &&& 0x02 = 0
  · have e : ¬ u8 (u8 (b0.val ||| 2)).val = b0 := by simpa using h0 hb
    simp [hb, e]
  · have e := h1 hb
    simp only [hb, e, if_false, if_true, not_true_eq_false]
    rw [derive_loop]
    have e2 : ¬ u8 ((u8 (b0.val ||| 2)).val ^^^ 4) = b0 := by simpa using h2
    simp [memcmp_bytes_eq_zero_iff, e2]

/-- The result of the loop of `esp_derive_local_mac` in the words of the
specification: byte 0 becomes `u[0] | 0x02` when bit 1 of `u[0]` is clear (exit at
`idx = 0`) and `u[0] ^ 0x04` when it is set (exit at `idx = 1`); bytes 1..5 are
those of `u`. -/
theorem derive_loop_closed (u : Mac) :
    derive_loop u 64 u 0 =
      if u.b0.val.testBit 1 = false
      then (⟨u8 (u.b0.val ||| 0x02), u.b1, u.b2, u.b3, u.b4, u.b5⟩, 0)
      else (⟨u8 (u.b0.val ^^^ 0x04), u.b1, u.b2, u.b3, u.b4, u.b5⟩, 1) := by
  obtain ⟨f0, f1, f2, -⟩ := derive_byte_forms u.b0
  rw [derive_loop_eq]
  by_cases hb : u.b0.val &&& 0x02 = 0
  · rw [if_pos hb, if_pos (f0.1 hb), f1]
  · have ht : ¬ (u.b0.val.testBit 1 = false) := fun h => hb (f0.2 h)
    rw [if_neg hb, if_neg ht, f2 hb]

/-- The result of `esp_derive_local_mac` on non-`NULL` arguments is the buffer the
loop yields. -/
theorem derive_local_mac_eq (l u : Mac) :
    esp_derive_local_mac (some l) (some u) = (ESP_OK, some (derive_loop u 64 u 0).1) :=
  rfl

/-- The loop of `esp_derive_local_mac` keeps bytes 1..5, sets bit 1 of byte 0,
keeps bit 0 of byte 0 and yields a buffer other than its input. -/
theorem derive_loop_props (u : Mac) :
    (derive_loop u 64 u 0).1.b1 = u.b1 ∧ (derive_loop u 64 u 0).1.b2 = u.b2 ∧
    (derive_loop u 64 u 0).1.b3 = u.b3 ∧ (derive_loop u 64 u 0).1.b4 = u.b4 ∧
    (derive_loop u 64 u 0).1.b5 = u.b5 ∧
    (derive_loop u 64 u 0).1.b0.val.testBit 1 = true ∧
    (derive_loop u 64 u 0).1.b0.val.testBit 0 = u.b0.val.testBit 0 ∧
    (derive_loop u 64 u 0).1 ≠ u := by
  obtain ⟨-, -, -, g0, g1, g2, g3, g4, g5⟩ := derive_byte_forms u.b0
  rw [derive_loop_closed]
  by_cases hb : u.b0.val.testBit 1 = false
  · rw [if_pos hb]
    refine ⟨rfl, rfl, rfl, rfl, rfl, g2, g0, ?_⟩
    intro hc
    exact g4 hb (congrArg Mac.b0 hc)
  · rw [if_neg hb]
    have ht : u.b0.val.testBit 1 = true := by simpa using hb
    refine ⟨rfl, rfl, rfl, rfl, rfl, g3 ht, g1, ?_⟩
    intro hc
    exact g5 (congrArg Mac.b0 hc)

/-- The soft-AP case of the `switch` with the universal soft-AP address off. -/
theorem read_mac_switch_softap_derived (cfg : Config) (b out : Mac)
    (hc : cfg.CONFIG_ESP_MAC_ADDR_UNIVERSE_WIFI_AP = false) :
    read_mac_switch cfg b out ESP_MAC_WIFI_SOFTAP = (derive_loop b 64 b 0).1 := by
  have e1 : ¬ (ESP_MAC_WIFI_SOFTAP = ESP_MAC_WIFI_STA) := by decide
  simp [read_mac_switch, e1, hc, derive_local_mac_eq]

/-- The Ethernet case of the `switch` with the universal Ethernet address off. -/
theorem read_mac_switch_eth_derived (cfg : Config) (b out : Mac)
    (hc : cfg.CONFIG_ESP_MAC_ADDR_UNIVERSE_ETH = false) :
    read_mac_switch cfg b out ESP_MAC_ETH
      = (derive_loop ⟨b.b0, b.b1, b.b2, b.b3, b.b4, u8 (b.b5.val + 1)⟩ 64
          ⟨b.b0, b.b1, b.b2, b.b3, b.b4, u8 (b.b5.val + 1)⟩ 0).1 := by
  have e1 : ¬ (ESP_MAC_ETH = ESP_MAC_WIFI_STA) := by decide
  have e2 : ¬ (ESP_MAC_ETH = ESP_MAC_WIFI_SOFTAP) := by decide
  have e3 : ¬ (ESP_MAC_ETH = ESP_MAC_BT) := by decide
  simp [read_mac_switch, e1, e2, e3, hc, derive_local_mac_eq]

set_option maxRecDepth 100000 in
/-- Adding 1, 2 or 3 to a byte modulo 256 gives four different bytes. -/
theorem byte_add_distinct : ∀ x : Byte,
    u8 (x.val + 1) ≠ x ∧ u8 (x.val + 2) ≠ x ∧ u8 (x.val + 3) ≠ x ∧
    u8 (x.val + 1) ≠ u8 (x.val + 2) ∧ u8 (x.val + 1) ≠ u8 (x.val + 3) ∧
    u8 (x.val + 2) ≠ u8 (x.val + 3) := by
  decide

/-- C11: with `CONFIG_ESP_MAC_ADDR_UNIVERSE_ETH` off, for every stored non-zero base
`b`, `esp_read_mac` with `ESP_MAC_ETH` returns `ESP_OK` with the result `r` of
`esp_derive_local_mac` applied to `b` with byte 5 replaced by `(b[5] + 1) mod 256`
and bytes 0..4 unchanged; `r` has bit 1 of byte 0 set and differs from that
incremented address. -/
theorem read_mac_eth_derived (cfg : Config) (ef : Efuse) (b stack out : Mac)
    (hc : cfg.CONFIG_ESP_MAC_ADDR_UNIVERSE_ETH = false) (hb : b ≠ null_mac) :
    ∃ r : Mac,
      esp_read_mac cfg ef b stack (some out) ESP_MAC_ETH = (ESP_OK, b, some r) ∧
      esp_derive_local_mac (some out)
          (some ⟨b.b0, b.b1, b.b2, b.b3, b.b4, ⟨(b.b5.val + 1) % 256, Nat.mod_lt _ (by decide)⟩⟩)
        = (ESP_OK, some r) ∧
      r.b0.val.testBit 1 = true ∧
      r ≠ ⟨b.b0, b.b1, b.b2, b.b3, b.b4, ⟨(b.b5.val + 1) % 256, Nat.mod_lt _ (by decide)⟩⟩ := by
  obtain ⟨-, -, -, -, -, p1, -, p2⟩ :=
    derive_loop_props ⟨b.b0, b.b1, b.b2, b.b3, b.b4, u8 (b.b5.val + 1)⟩
  refine ⟨_, ?_, derive_local_mac_eq out _, p1, p2⟩
  rw [read_mac_of_stored cfg ef b stack out ESP_MAC_ETH hb (by decide) (by decide),
    read_mac_switch_eth_derived cfg b out hc]
  rfl

/-- Witness of `read_mac_eth_derived` at the base `AA:BB:CC:DD:EE:FF`: the
derivation input is `AA:BB:CC:DD:EE:00` and the Ethernet address is
`AE:BB:CC:DD:EE:00`. -/
theorem read_mac_eth_derived_witness :
    ∃ r : Mac,
      esp_read_mac cfg_esp32_two efuse_read_fails ⟨0xaa, 0xbb, 0xcc, 0xdd, 0xee, 0xff⟩
          ⟨1, 2, 3, 4, 5, 6⟩ (some null_mac) ESP_MAC_ETH
        = (ESP_OK, ⟨0xaa, 0xbb, 0xcc, 0xdd, 0xee, 0xff⟩, some r) ∧
      esp_derive_local_mac (some null_mac) (some ⟨0xaa, 0xbb, 0xcc, 0xdd, 0xee, 0x00⟩)
        = (ESP_OK, some r) ∧
      r.b0.val.testBit 1 = true ∧
      r ≠ ⟨0xaa, 0xbb, 0xcc, 0xdd, 0xee, 0x00⟩ :=
  read_mac_eth_derived cfg_esp32_two efuse_read_fails ⟨0xaa, 0xbb, 0xcc, 0xdd, 0xee, 0xff⟩
    ⟨1, 2, 3, 4, 5, 6⟩ null_mac rfl (by decide)

/-- C12: with `CONFIG_ESP_MAC_ADDR_UNIVERSE_WIFI_AP` and
`CONFIG_ESP_MAC_ADDR_UNIVERSE_ETH` both off, for every stored non-zero base `b` the
address `esp_read_mac` returns for `ESP_MAC_ETH` differs from the one it returns
for `ESP_MAC_WIFI_SOFTAP`, whatever the buffers held before. -/
theorem read_mac_eth_ne_softap_derived (cfg : Config) (ef : Efuse)
    (b stack1 out1 stack2 out2 : Mac)
    (ha : cfg.CONFIG_ESP_MAC_ADDR_UNIVERSE_WIFI_AP = false)
    (he : cfg.CONFIG_ESP_MAC_ADDR_UNIVERSE_ETH = false) (hb : b ≠ null_mac) :
    (esp_read_mac cfg ef b stack1 (some out1) ESP_MAC_ETH).1 = ESP_OK ∧
    (esp_read_mac cfg ef b stack2 (some out2) ESP_MAC_WIFI_SOFTAP).1 = ESP_OK ∧
    (esp_read_mac cfg ef b stack1 (some out1) ESP_MAC_ETH).2.2
      ≠ (esp_read_mac cfg ef b stack2 (some out2) ESP_MAC_WIFI_SOFTAP).2.2 := by
  rw [read_mac_of_stored cfg ef b stack1 out1 ESP_MAC_ETH hb (by decide) (by decide),
    read_mac_of_stored cfg ef b stack2 out2 ESP_MAC_WIFI_SOFTAP hb (by decide) (by decide),
    read_mac_switch_eth_derived cfg b out1 he, read_mac_switch_softap_derived cfg b out2 ha]
  refine ⟨rfl, rfl, ?_⟩
  intro hc
  have h5 := congrArg Mac.b5 (Option.some.inj hc)
  rw [(derive_loop_props _).2.2.2.2.1, (derive_loop_props b).2.2.2.2.1] at h5
  exact (byte_add_distinct b.b5).1 h5

/-- Witness of `read_mac_eth_ne_softap_derived` at the base `AA:BB:CC:DD:EE:FF`. -/
theorem read_mac_eth_ne_softap_derived_witness :
    (esp_read_mac cfg_esp32_two efuse_read_fails ⟨0xaa, 0xbb, 0xcc, 0xdd, 0xee, 0xff⟩
        ⟨1, 2, 3, 4, 5, 6⟩ (some null_mac) ESP_MAC_ETH).2.2
      ≠ (esp_read_mac cfg_esp32_two efuse_read_fails ⟨0xaa, 0xbb, 0xcc, 0xdd, 0xee, 0xff⟩
        ⟨6, 5, 4, 3, 2, 1⟩ (some ⟨9, 9, 9, 9, 9, 9⟩) ESP_MAC_WIFI_SOFTAP).2.2 :=
  (read_mac_eth_ne_softap_derived cfg_esp32_two efuse_read_fails
    ⟨0xaa, 0xbb, 0xcc, 0xdd, 0xee, 0xff⟩ ⟨1, 2, 3, 4, 5, 6⟩ null_mac ⟨6, 5, 4, 3, 2, 1⟩
    ⟨9, 9, 9, 9, 9, 9⟩ rfl rfl (by decide)).2.2

/-! ## The custom MAC: emptiness and the extension field -/

/-- The emptiness test `mac[0] == 0 && memcmp(mac, &mac[1], k) == 0` holds exactly
when the first `k + 1` bytes are zero, for a buffer `a :: t` of at least `k + 1`
bytes. -/
theorem memcmp_shifted_zero_iff (k : Nat) : ∀ (a : Byte) (t : List Byte), k ≤ t.length →
    ((a = 0 ∧ memcmp (a :: t) t k = 0) ↔ ∀ x ∈ (a :: t).take (k + 1), x = 0) := by
  induction k with
  | zero =>
    intro a t _
    have e : memcmp (a :: t) t 0 = 0 := by
      cases t <;> rfl
    simp [e]
  | succ k ih =>
    intro a t hl
    cases t with
    | nil => simp at hl
    | cons b t =>
      have hl2 : k ≤ t.length := by simpa using hl
      have hstep : memcmp (a :: b :: t) (b :: t) (k + 1)
          = if a = b then memcmp (b :: t) t k else (a.val : Int) - (b.val : Int) := rfl
      have hrec := ih b t hl2
      rw [hstep]
      have htake : (a :: b :: t).take (k + 1 + 1) = a :: (b :: t).take (k + 1) := rfl
      rw [htake]
      constructor
      · rintro ⟨ha, hm⟩
        by_cases hab : a = b
        · rw [if_pos hab] at hm
          have hb0 : b = 0 := hab ▸ ha
          intro x hx
          rcases List.mem_cons.1 hx with hxa | hxt
          · rw [hxa]; exact ha
          · exact hrec.1 ⟨hb0, hm⟩ x hxt
        · rw [if_neg hab] at hm
          exact absurd (byte_eq_of_sub_eq_zero hm) hab
      · intro hall
        have ha : a = 0 := hall a (List.mem_cons_self _ _)
        have hrest : ∀ x ∈ (b :: t).take (k + 1), x = 0 :=
          fun x hx => hall x (List.mem_cons_of_mem _ hx)
        obtain ⟨hb0, hm⟩ := hrec.2 hrest
        have hab : a = b := by rw [ha, hb0]
        exact ⟨ha, by rw [if_pos hab]; exact hm⟩

/-- The emptiness test of `esp_efuse_mac_get_custom` on a buffer of at least `n`
bytes, for a field of `n` bytes with `1 ≤ n < 2 ^ 32`: it holds exactly when the
first `n` bytes are zero. -/
theorem custom_empty_test_iff (mac : List Byte) (n : Nat) (hn : 1 ≤ n) (hn32 : n < 2 ^ 32)
    (hl : n ≤ mac.length) :
    (mac.head? = some 0 ∧ memcmp mac (mac.drop 1) (sub_size_t n 1) = 0)
      ↔ ∀ x ∈ mac.take n, x = 0 := by
  have hsub : sub_size_t n 1 = n - 1 := by
    unfold sub_size_t
    omega
  cases mac with
  | nil => simp at hl; omega
  | cons a t =>
    have hl2 : n - 1 ≤ t.length := by simp at hl; omega
    have hk := memcmp_shifted_zero_iff (n - 1) a t hl2
    have e : n - 1 + 1 = n := by omega
    rw [e] at hk
    rw [hsub]
    simpa using hk

/-- On a chip other than ESP32, after a successful read of an `n`-byte custom
field delivering `mac`, `esp_efuse_mac_get_custom` returns `ESP_ERR_INVALID_MAC`
when the `n` bytes are zero, and otherwise goes on to the extension field (when
`ESP_MAC_ADDRESS_LEN` is 8, asking for `ESP_MAC_ADDRESS_LEN - n` bits) or returns
`ESP_OK`. -/
theorem get_custom_non_esp32 (cfg : Config) (len : Nat) (ef : EfuseCustom)
    (buf mac : List Byte) (n : Nat)
    (ht : cfg.CONFIG_IDF_TARGET ≠ idf_target.ESP32)
    (hs : ef.field_size_USER_DATA_MAC_CUSTOM = 8 * n) (hn : 1 ≤ n) (hn32 : n < 2 ^ 32)
    (hr : ef.read_USER_DATA_MAC_CUSTOM (8 * n) buf = (ESP_OK, mac)) (hl : n ≤ mac.length) :
    ((∀ x ∈ mac.take n, x = 0) →
      esp_efuse_mac_get_custom cfg len ef buf = some (ESP_ERR_INVALID_MAC, mac)) ∧
    (¬ (∀ x ∈ mac.take n, x = 0) →
      esp_efuse_mac_get_custom cfg len ef buf =
        if len = 8 then
          some ((ef.read_MAC_EXT (sub_size_t len n) (mac.drop 6)).1,
            mac.take 6 ++ (ef.read_MAC_EXT (sub_size_t len n) (mac.drop 6)).2)
        else some (ESP_OK, mac)) := by
  have hmod : ¬ (8 * n % 8 ≠ 0) := by omega
  have hdiv : 8 * n / 8 = n := by omega
  have hok : ¬ (ESP_OK ≠ ESP_OK) := fun h => h rfl
  have htest := custom_empty_test_iff mac n hn hn32 hl
  constructor
  · intro hz
    simp only [esp_efuse_mac_get_custom, if_pos ht, hs, if_neg hmod, hr, if_neg hok, hdiv,
      if_pos (htest.2 hz)]
  · intro hz
    have hz2 : ¬ (mac.head? = some 0 ∧ memcmp mac (mac.drop 1) (sub_size_t n 1) = 0) :=
      fun h => hz (htest.1 h)
    simp only [esp_efuse_mac_get_custom, if_pos ht, hs, if_neg hmod, hr, if_neg hok, hdiv,
      if_neg hz2]
    by_cases h8 : len = 8
    · simp only [if_pos h8]
      by_cases he : (ef.read_MAC_EXT (sub_size_t len n) (mac.drop 6)).1 ≠ ESP_OK
      · rw [if_pos he]
      · rw [if_neg he]
        have he2 : (ef.read_MAC_EXT (sub_size_t len n) (mac.drop 6)).1 = ESP_OK := by
          simpa using he
        rw [he2]
    · simp only [if_neg h8]

/-- With 8-byte addresses and a 6-byte custom field that is not blank,
`esp_efuse_mac_get_custom` asks the fuse driver for 2 bits of the extension
field and returns the code of that read. -/
theorem get_custom_ext_request (cfg : Config) (ef : EfuseCustom) (buf mac : List Byte)
    (ht : cfg.CONFIG_IDF_TARGET ≠ idf_target.ESP32)
    (hs : ef.field_size_USER_DATA_MAC_CUSTOM = 48)
    (hr : ef.read_USER_DATA_MAC_CUSTOM 48 buf = (ESP_OK, mac)) (hl : 6 ≤ mac.length)
    (hz : ¬ (∀ x ∈ mac.take 6, x = 0)) :
    esp_efuse_mac_get_custom cfg 8 ef buf =
      some ((ef.read_MAC_EXT 2 (mac.drop 6)).1, mac.take 6 ++ (ef.read_MAC_EXT 2 (mac.drop 6)).2) := by
  have h := (get_custom_non_esp32 cfg 8 ef buf mac 6 ht hs (by decide) (by decide) hr hl).2 hz
  rw [h]
  rfl

/-- C14 (evaluation of the code at the failing input): on an ESP32-S2 with 8-byte
addresses, a custom field holding `11:22:33:44:55:66` and an extension field
holding the bytes `EF BE`, the third argument of the extension read is
`ESP_MAC_ADDRESS_LEN - size = 2`, a count of bytes where the driver expects bits:
`esp_efuse_mac_get_custom` returns `ESP_OK` with byte 6 equal to `0x03` (the low two
bits of `EF`) and byte 7 left as the caller had it, where a 16-bit read delivers
`EF BE`. -/
theorem get_custom_ext_reads_two_bits :
    sub_size_t 8 (efuse_custom_ext.field_size_USER_DATA_MAC_CUSTOM / 8) = 2 ∧
    esp_efuse_mac_get_custom cfg_esp32s2_two 8 efuse_custom_ext [9, 9, 9, 9, 9, 9, 7, 7]
      = some (ESP_OK, [0x11, 0x22, 0x33, 0x44, 0x55, 0x66, 0x03, 0x07]) ∧
    efuse_custom_ext.read_MAC_EXT 16 [7, 7] = (ESP_OK, [0xef, 0xbe]) ∧
    esp_efuse_mac_get_custom cfg_esp32s2_two 8 efuse_custom_ext [9, 9, 9, 9, 9, 9, 7, 7]
      ≠ some (ESP_OK, [0x11, 0x22, 0x33, 0x44, 0x55, 0x66, 0xef, 0xbe]) := by
  decide

/-! ## The soft-AP address -/

/-- Six-byte `memcmp` orders buffers as their big-endian 48-bit values. -/
theorem memcmp_nonneg_iff (a b : Mac) : memcmp a.bytes b.bytes 6 ≥ 0 ↔ b.toNat ≤ a.toNat := by
  rcases a with ⟨a0, a1, a2, a3, a4, a5⟩
  rcases b with ⟨c0, c1, c2, c3, c4, c5⟩
  have ha0 := a0.isLt
  have ha1 := a1.isLt
  have ha2 := a2.isLt
  have ha3 := a3.isLt
  have ha4 := a4.isLt
  have ha5 := a5.isLt
  have hc0 := c0.isLt
  have hc1 := c1.isLt
  have hc2 := c2.isLt
  have hc3 := c3.isLt
  have hc4 := c4.isLt
  have hc5 := c5.isLt
  simp only [Mac.bytes, memcmp, Mac.toNat]
  split_ifs with h0 h1 h2 h3 h4 h5
  · subst h0 h1 h2 h3 h4 h5
    simp
  · subst h0 h1 h2 h3 h4
    have := Fin.val_ne_of_ne h5
    constructor <;> intro h <;> omega
  · subst h0 h1 h2 h3
    have := Fin.val_ne_of_ne h4
    constructor <;> intro h <;> omega
  · subst h0 h1 h2
    have := Fin.val_ne_of_ne h3
    constructor <;> intro h <;> omega
  · subst h0 h1
    have := Fin.val_ne_of_ne h2
    constructor <;> intro h <;> omega
  · subst h0
    have := Fin.val_ne_of_ne h1
    constructor <;> intro h <;> omega
  · have := Fin.val_ne_of_ne h0
    constructor <;> intro h <;> omega

/-- The range test of the soft-AP case is the test of the big-endian value
against `0x7CDFA1003000` and `0x7CDFA1005FFF`. -/
theorem softap_range_test_iff (b : Mac) :
    (memcmp b.bytes (Mac.mk 0x7c 0xdf 0xa1 0x00 0x30 0x00).bytes 6 ≥ 0 ∧
      memcmp (Mac.mk 0x7c 0xdf 0xa1 0x00 0x5f 0xff).bytes b.bytes 6 ≥ 0)
      ↔ in_softap_remap_range b := by
  rw [memcmp_nonneg_iff, memcmp_nonneg_iff]
  exact Iff.rfl

/-- The soft-AP case of the `switch` with the universal soft-AP address on. -/
theorem read_mac_switch_softap_universal (cfg : Config) (b out : Mac)
    (hc : cfg.CONFIG_ESP_MAC_ADDR_UNIVERSE_WIFI_AP = true) :
    read_mac_switch cfg b out ESP_MAC_WIFI_SOFTAP =
      if cfg.CONFIG_IDF_TARGET = idf_target.ESP32S2 ∧ in_softap_remap_range b
      then ⟨b.b0, b.b1, b.b2, u8 (b.b3.val + 0x02), u8 (b.b4.val + 0xd0), b.b5⟩
      else ⟨b.b0, b.b1, b.b2, b.b3, b.b4, u8 (b.b5.val + 1)⟩ := by
  have e1 : ¬ (ESP_MAC_WIFI_SOFTAP = ESP_MAC_WIFI_STA) := by decide
  simp only [read_mac_switch, if_neg e1, if_true, hc, softap_range_test_iff]
  by_cases ht : cfg.CONFIG_IDF_TARGET = idf_target.ESP32S2
  · by_cases hr : in_softap_remap_range b
    · rw [if_pos ht, if_pos hr, if_pos ⟨ht, hr⟩]
    · rw [if_pos ht, if_neg hr, if_neg (fun h => hr h.2)]
  · rw [if_neg ht, if_neg (fun h => ht h.1)]

/-- With the universal soft-AP address on, a stored base that is not subject to
the remap gets its last byte incremented modulo 256 and nothing else changed. -/
theorem read_mac_softap_not_remapped (cfg : Config) (ef : Efuse) (b stack out : Mac)
    (ha : cfg.CONFIG_ESP_MAC_ADDR_UNIVERSE_WIFI_AP = true)
    (hn : cfg.CONFIG_IDF_TARGET ≠ idf_target.ESP32S2 ∨ ¬ in_softap_remap_range b)
    (hb : b ≠ null_mac) :
    esp_read_mac cfg ef b stack (some out) ESP_MAC_WIFI_SOFTAP
      = (ESP_OK, b, some ⟨b.b0, b.b1, b.b2, b.b3, b.b4, u8 (b.b5.val + 1)⟩) := by
  have hcond : ¬ (cfg.CONFIG_IDF_TARGET = idf_target.ESP32S2 ∧ in_softap_remap_range b) := by
    rintro ⟨h1, h2⟩
    rcases hn with h | h
    · exact h h1
    · exact h h2
  rw [read_mac_of_stored cfg ef b stack out ESP_MAC_WIFI_SOFTAP hb (by decide) (by decide),
    read_mac_switch_softap_universal cfg b out ha, if_neg hcond]

/-- C15: with `CONFIG_ESP_MAC_ADDR_UNIVERSE_WIFI_AP` on, for every stored non-zero
base `b` that is not subject to the remap (a chip other than ESP32-S2, or a base
outside `7C:DF:A1:00:30:00`..`7C:DF:A1:00:5F:FF`), `esp_read_mac` with
`ESP_MAC_WIFI_SOFTAP` returns `b` with byte 5 replaced by `(b[5] + 1) mod 256` and
bytes 0..4 unchanged; a base ending in `FF` yields a last byte of `00` with byte 4
unchanged. -/
theorem read_mac_softap_plus_one (cfg : Config) (ef : Efuse) (b stack out : Mac)
    (ha : cfg.CONFIG_ESP_MAC_ADDR_UNIVERSE_WIFI_AP = true)
    (hn : cfg.CONFIG_IDF_TARGET ≠ idf_target.ESP32S2 ∨ ¬ in_softap_remap_range b)
    (hb : b ≠ null_mac) :
    esp_read_mac cfg ef b stack (some out) ESP_MAC_WIFI_SOFTAP
      = (ESP_OK, b,
          some ⟨b.b0, b.b1, b.b2, b.b3, b.b4, ⟨(b.b5.val + 1) % 256, Nat.mod_lt _ (by decide)⟩⟩) ∧
    (b.b5 = 0xff →
      esp_read_mac cfg ef b stack (some out) ESP_MAC_WIFI_SOFTAP
        = (ESP_OK, b, some ⟨b.b0, b.b1, b.b2, b.b3, b.b4, 0x00⟩)) := by
  have e := read_mac_softap_not_remapped cfg ef b stack out ha hn hb
  refine ⟨e, ?_⟩
  intro h5
  rw [e, h5]
  rfl

/-- Witness of `read_mac_softap_plus_one` on an ESP32-S2 at the base
`24:0A:C4:00:12:FF`, which is outside the remapped range. -/
theorem read_mac_softap_plus_one_witness :
    esp_read_mac cfg_esp32s2_four efuse_read_fails ⟨0x24, 0x0a, 0xc4, 0x00, 0x12, 0xff⟩
        ⟨1, 2, 3, 4, 5, 6⟩ (some null_mac) ESP_MAC_WIFI_SOFTAP
      = (ESP_OK, ⟨0x24, 0x0a, 0xc4, 0x00, 0x12, 0xff⟩, some ⟨0x24, 0x0a, 0xc4, 0x00, 0x12, 0x00⟩) :=
  (read_mac_softap_plus_one cfg_esp32s2_four efuse_read_fails
    ⟨0x24, 0x0a, 0xc4, 0x00, 0x12, 0xff⟩ ⟨1, 2, 3, 4, 5, 6⟩ null_mac rfl
    (Or.inr (by decide)) (by decide)).2 rfl

/-- A base in the remapped range has bytes 0..3 equal to `7C:DF:A1:00` and byte 4
between `0x30` and `0x5F`. -/
theorem softap_remap_range_bytes (b : Mac) (h : in_softap_remap_range b) :
    b.b0.val = 0x7c ∧ b.b1.val = 0xdf ∧ b.b2.val = 0xa1 ∧ b.b3.val = 0x00 ∧
    0x30 ≤ b.b4.val ∧ b.b4.val ≤ 0x5f := by
  have h0 := b.b0.isLt
  have h1 := b.b1.isLt
  have h2 := b.b2.isLt
  have h3 := b.b3.isLt
  have h4 := b.b4.isLt
  have h5 := b.b5.isLt
  unfold in_softap_remap_range Mac.toNat at h
  omega

/-- C17: on ESP32-S2 with `CONFIG_ESP_MAC_ADDR_UNIVERSE_WIFI_AP` on, for every stored
base `b` whose big-endian 48-bit value lies in `[0x7CDFA1003000, 0x7CDFA1005FFF]`,
the soft-AP address `esp_read_mac` returns equals `b + 0x1D000` as a big-endian
48-bit value and lies in `[0x7CDFA1020000, 0x7CDFA1022FFF]`, a block disjoint from
the source range; for every stored base outside the range the remap is not
applied, the address being `b` with `(b[5] + 1) mod 256` as last byte. -/
theorem read_mac_softap_remap_arith (cfg : Config) (ef : Efuse) (b stack out : Mac)
    (ht : cfg.CONFIG_IDF_TARGET = idf_target.ESP32S2)
    (ha : cfg.CONFIG_ESP_MAC_ADDR_UNIVERSE_WIFI_AP = true) :
    (in_softap_remap_range b →
      ∃ r : Mac, esp_read_mac cfg ef b stack (some out) ESP_MAC_WIFI_SOFTAP = (ESP_OK, b, some r) ∧
        r.toNat = b.toNat + 0x1d000 ∧
        0x7cdfa1020000 ≤ r.toNat ∧ r.toNat ≤ 0x7cdfa1022fff) ∧
    (∀ x : Mac, in_softap_remap_range x →
      ¬ (0x7cdfa1020000 ≤ x.toNat ∧ x.toNat ≤ 0x7cdfa1022fff)) ∧
    (¬ in_softap_remap_range b → b ≠ null_mac →
      esp_read_mac cfg ef b stack (some out) ESP_MAC_WIFI_SOFTAP
        = (ESP_OK, b,
            some ⟨b.b0, b.b1, b.b2, b.b3, b.b4, ⟨(b.b5.val + 1) % 256, Nat.mod_lt _ (by decide)⟩⟩)) := by
  refine ⟨?_, ?_, ?_⟩
  · intro hr
    have hb : b ≠ null_mac := by
      intro hz
      rw [hz] at hr
      exact absurd hr (by decide)
    obtain ⟨e0, e1, e2, e3, e4, e5⟩ := softap_remap_range_bytes b hr
    have h5 := b.b5.isLt
    refine ⟨⟨b.b0, b.b1, b.b2, u8 (b.b3.val + 0x02), u8 (b.b4.val + 0xd0), b.b5⟩, ?_, ?_, ?_, ?_⟩
    · rw [read_mac_of_stored cfg ef b stack out ESP_MAC_WIFI_SOFTAP hb (by decide) (by decide),
        read_mac_switch_softap_universal cfg b out ha, if_pos ⟨ht, hr⟩]
    · simp only [Mac.toNat, u8]
      omega
    · simp only [Mac.toNat, u8]
      omega
    · simp only [Mac.toNat, u8]
      omega
  · intro x hx
    unfold in_softap_remap_range at hx
    omega
  · intro hr hb
    exact read_mac_softap_not_remapped cfg ef b stack out ha (Or.inr hr) hb

/-- Witness of `read_mac_softap_remap_arith` at the last base of the range,
`7C:DF:A1:00:5F:FF`, which is remapped to `7C:DF:A1:02:2F:FF`. -/
theorem read_mac_softap_remap_arith_witness :
    ∃ r : Mac,
      esp_read_mac cfg_esp32s2_four efuse_read_fails ⟨0x7c, 0xdf, 0xa1, 0x00, 0x5f, 0xff⟩
          ⟨1, 2, 3, 4, 5, 6⟩ (some null_mac) ESP_MAC_WIFI_SOFTAP
        = (ESP_OK, ⟨0x7c, 0xdf, 0xa1, 0x00, 0x5f, 0xff⟩, some r) ∧
      r.toNat = (Mac.mk 0x7c 0xdf 0xa1 0x00 0x5f 0xff).toNat + 0x1d000 ∧
      0x7cdfa1020000 ≤ r.toNat ∧ r.toNat ≤ 0x7cdfa1022fff :=
  (read_mac_softap_remap_arith cfg_esp32s2_four efuse_read_fails
    ⟨0x7c, 0xdf, 0xa1, 0x00, 0x5f, 0xff⟩ ⟨1, 2, 3, 4, 5, 6⟩ null_mac rfl rfl).1 (by decide)

/-! ## Derivation: the exact output -/

set_option maxRecDepth 100000 in
/-- The values `b | 0x02` and `b ^ 0x04` of a byte fit a byte. -/
theorem byte_or_xor_val : ∀ b : Byte,
    (u8 (b.val ||| 0x02)).val = b.val ||| 0x02 ∧ (u8 (b.val ^^^ 0x04)).val = b.val ^^^ 0x04 := by
  decide

/-- C16: for every six-byte input `u`, `esp_derive_local_mac` returns `ESP_OK` with
bytes 1..5 equal to those of `u`; byte 0 is `u[0] | 0x02` when bit 1 of `u[0]` is
clear, the loop being left at `idx = 0`, and `u[0] ^ 0x04` when bit 1 is set, the
loop being left at `idx = 1`. The loop is always left before `idx = 2`, and any
iteration bound of at least two gives the same result as the bound 64. -/
theorem derive_local_mac_closed_form (u l : Mac) :
    ∃ out : Mac, esp_derive_local_mac (some l) (some u) = (ESP_OK, some out) ∧
      out.b1 = u.b1 ∧ out.b2 = u.b2 ∧ out.b3 = u.b3 ∧ out.b4 = u.b4 ∧ out.b5 = u.b5 ∧
      (u.b0.val.testBit 1 = false →
        out.b0.val = u.b0.val ||| 0x02 ∧ (derive_loop u 64 u 0).2 = 0) ∧
      (u.b0.val.testBit 1 = true →
        out.b0.val = u.b0.val ^^^ 0x04 ∧ (derive_loop u 64 u 0).2 = 1) ∧
      (derive_loop u 64 u 0).2 < 2 ∧
      (∀ fuel : Nat, 2 ≤ fuel → derive_loop u fuel u 0 = derive_loop u 64 u 0) := by
  obtain ⟨v0, v1⟩ := byte_or_xor_val u.b0
  refine ⟨(derive_loop u 64 u 0).1, rfl, ?_⟩
  have hfuel : ∀ fuel : Nat, 2 ≤ fuel → derive_loop u fuel u 0 = derive_loop u 64 u 0 := by
    intro fuel hf
    obtain ⟨k, rfl⟩ : ∃ k, fuel = k + 2 := ⟨fuel - 2, by omega⟩
    rw [derive_loop_fuel, derive_loop_eq]
  rw [derive_loop_closed]
  by_cases hb : u.b0.val.testBit 1 = false
  · rw [if_pos hb]
    refine ⟨rfl, rfl, rfl, rfl, rfl, fun _ => ⟨v0, rfl⟩, fun h => ?_,
      (show (0 : Nat) < 2 by decide), ?_⟩
    · rw [hb] at h
      exact absurd h (by decide)
    · intro fuel hf
      rw [hfuel fuel hf, derive_loop_closed, if_pos hb]
  · rw [if_neg hb]
    refine ⟨rfl, rfl, rfl, rfl, rfl, fun h => absurd h hb, fun _ => ⟨v1, rfl⟩,
      (show (1 : Nat) < 2 by decide), ?_⟩
    intro fuel hf
    rw [hfuel fuel hf, derive_loop_closed, if_neg hb]

/-- Witness of `derive_local_mac_closed_form` at `AA:BB:CC:DD:EE:00`, whose bit 1
of byte 0 is set: byte 0 becomes `0xAA ^ 0x04` and the loop is left at `idx = 1`. -/
theorem derive_local_mac_closed_form_witness :
    ∃ out : Mac,
      esp_derive_local_mac (some null_mac) (some ⟨0xaa, 0xbb, 0xcc, 0xdd, 0xee, 0x00⟩)
        = (ESP_OK, some out) ∧
      out.b0.val = 0xaa ^^^ 0x04 ∧
      (derive_loop ⟨0xaa, 0xbb, 0xcc, 0xdd, 0xee, 0x00⟩ 64 ⟨0xaa, 0xbb, 0xcc, 0xdd, 0xee, 0x00⟩ 0).2
        = 1 := by
  obtain ⟨out, h1, -, -, -, -, -, -, h2, -⟩ :=
    derive_local_mac_closed_form ⟨0xaa, 0xbb, 0xcc, 0xdd, 0xee, 0x00⟩ null_mac
  exact ⟨out, h1, h2 (by decide)⟩

/-- C20: `esp_derive_local_mac` keeps the unicast/multicast flag: for every six-byte
input `u`, bit 0 of byte 0 of the output equals bit 0 of `u[0]`. Hence for a stored
unicast base the soft-AP address (with `CONFIG_ESP_MAC_ADDR_UNIVERSE_WIFI_AP` off)
and the Ethernet address (with `CONFIG_ESP_MAC_ADDR_UNIVERSE_ETH` off) that
`esp_read_mac` returns are unicast and locally administered. -/
theorem derive_local_mac_keeps_unicast (cfg : Config) (ef : Efuse) (u l b stack out : Mac) :
    (∃ r : Mac, esp_derive_local_mac (some l) (some u) = (ESP_OK, some r) ∧
      r.b0.val.testBit 0 = u.b0.val.testBit 0) ∧
    (b ≠ null_mac → b.b0.val.testBit 0 = false →
      cfg.CONFIG_ESP_MAC_ADDR_UNIVERSE_WIFI_AP = false →
      ∃ r : Mac, esp_read_mac cfg ef b stack (some out) ESP_MAC_WIFI_SOFTAP = (ESP_OK, b, some r) ∧
        r.b0.val.testBit 0 = false ∧ r.b0.val.testBit 1 = true) ∧
    (b ≠ null_mac → b.b0.val.testBit 0 = false →
      cfg.CONFIG_ESP_MAC_ADDR_UNIVERSE_ETH = false →
      ∃ r : Mac, esp_read_mac cfg ef b stack (some out) ESP_MAC_ETH = (ESP_OK, b, some r) ∧
        r.b0.val.testBit 0 = false ∧ r.b0.val.testBit 1 = true) := by
  refine ⟨⟨_, derive_local_mac_eq l u, (derive_loop_props u).2.2.2.2.2.2.1⟩, ?_, ?_⟩
  · intro hb hu hc
    refine ⟨(derive_loop b 64 b 0).1, ?_, ?_, (derive_loop_props b).2.2.2.2.2.1⟩
    · rw [read_mac_of_stored cfg ef b stack out ESP_MAC_WIFI_SOFTAP hb (by decide) (by decide),
        read_mac_switch_softap_derived cfg b out hc]
    · rw [(derive_loop_props b).2.2.2.2.2.2.1, hu]
  · intro hb hu hc
    have hp := derive_loop_props ⟨b.b0, b.b1, b.b2, b.b3, b.b4, u8 (b.b5.val + 1)⟩
    refine ⟨(derive_loop ⟨b.b0, b.b1, b.b2, b.b3, b.b4, u8 (b.b5.val + 1)⟩ 64
      ⟨b.b0, b.b1, b.b2, b.b3, b.b4, u8 (b.b5.val + 1)⟩ 0).1, ?_, ?_, hp.2.2.2.2.2.1⟩
    · rw [read_mac_of_stored cfg ef b stack out ESP_MAC_ETH hb (by decide) (by decide),
        read_mac_switch_eth_derived cfg b out hc]
    · rw [hp.2.2.2.2.2.2.1]
      exact hu

/-- Witness of `derive_local_mac_keeps_unicast` at the unicast base
`24:0A:C4:00:00:10`: the derived soft-AP address is unicast. -/
theorem derive_local_mac_keeps_unicast_witness :
    ∃ r : Mac,
      esp_read_mac cfg_esp32_two efuse_read_fails ⟨0x24, 0x0a, 0xc4, 0x00, 0x00, 0x10⟩
          ⟨1, 2, 3, 4, 5, 6⟩ (some null_mac) ESP_MAC_WIFI_SOFTAP
        = (ESP_OK, ⟨0x24, 0x0a, 0xc4, 0x00, 0x00, 0x10⟩, some r) ∧
      r.b0.val.testBit 0 = false ∧ r.b0.val.testBit 1 = true :=
  (derive_local_mac_keeps_unicast cfg_esp32_two efuse_read_fails null_mac null_mac
    ⟨0x24, 0x0a, 0xc4, 0x00, 0x00, 0x10⟩ ⟨1, 2, 3, 4, 5, 6⟩ null_mac).2.1
    (by decide) (by decide) rfl

/-! ## The resolver on an unset store, and the four addresses together -/

/-- With the slot unset and a valid type, `esp_read_mac` reads the factory MAC into
`efuse_mac`, offers it to `esp_base_mac_addr_set` and runs the `switch` on it. -/
theorem read_mac_of_unset (cfg : Config) (ef : Efuse) (stack out : Mac) (type : Int)
    (h0 : ESP_MAC_WIFI_STA ≤ type) (h1 : type ≤ ESP_MAC_ETH) :
    esp_read_mac cfg ef null_mac stack (some out) type
      = (ESP_OK,
          (esp_base_mac_addr_set null_mac (some (esp_efuse_mac_get_default cfg ef stack).2)).2,
          some (read_mac_switch cfg (esp_efuse_mac_get_default cfg ef stack).2 out type)) := by
  have hr : ¬ (type < ESP_MAC_WIFI_STA ∨ type > ESP_MAC_ETH) := by
    simp only [ESP_MAC_WIFI_STA, ESP_MAC_ETH] at *
    omega
  have hg : esp_base_mac_addr_get null_mac stack = (ESP_ERR_INVALID_MAC, stack) := by
    simp only [esp_base_mac_addr_get, memcmp_bytes_eq_zero_iff, if_true]
  have hne : ESP_ERR_INVALID_MAC ≠ ESP_OK := by decide
  simp only [esp_read_mac, if_neg hr, hg, if_pos hne]

/-- A unicast address is accepted by `esp_base_mac_addr_set` and becomes the slot. -/
theorem base_mac_set_unicast (s m : Mac) (hu : m.b0.val.testBit 0 = false) :
    esp_base_mac_addr_set s (some m) = (ESP_OK, m) := by
  have hb : ¬ (m.b0.val &&& 0x01 ≠ 0) := by
    rw [byte_and_one_ne_zero_iff, hu]; simp
  simp only [esp_base_mac_addr_set, if_neg hb]

/-- C18 (as stated, refuted): on an ESP32-S2 with the slot unset,
`esp_efuse_mac_get_default` succeeds with the blank address `00:00:00:00:00:00`,
respectively with the multicast address `01:00:5E:00:00:01`; `esp_read_mac` returns
`ESP_OK`, the slot is all zero afterwards and `esp_base_mac_addr_get` returns
`ESP_ERR_INVALID_MAC` instead of the address. -/
theorem read_mac_write_back_fails :
    esp_efuse_mac_get_default cfg_esp32s2_two efuse_factory_blank ⟨1, 2, 3, 4, 5, 6⟩
      = (ESP_OK, null_mac) ∧
    esp_read_mac cfg_esp32s2_two efuse_factory_blank null_mac ⟨1, 2, 3, 4, 5, 6⟩
        (some ⟨9, 9, 9, 9, 9, 9⟩) ESP_MAC_WIFI_STA = (ESP_OK, null_mac, some null_mac) ∧
    esp_base_mac_addr_get
        (esp_read_mac cfg_esp32s2_two efuse_factory_blank null_mac ⟨1, 2, 3, 4, 5, 6⟩
          (some ⟨9, 9, 9, 9, 9, 9⟩) ESP_MAC_WIFI_STA).2.1 ⟨7, 7, 7, 7, 7, 7⟩
      = (ESP_ERR_INVALID_MAC, ⟨7, 7, 7, 7, 7, 7⟩) ∧
    esp_efuse_mac_get_default cfg_esp32s2_two efuse_factory_multicast ⟨1, 2, 3, 4, 5, 6⟩
      = (ESP_OK, ⟨0x01, 0x00, 0x5e, 0x00, 0x00, 0x01⟩) ∧
    esp_read_mac cfg_esp32s2_two efuse_factory_multicast null_mac ⟨1, 2, 3, 4, 5, 6⟩
        (some ⟨9, 9, 9, 9, 9, 9⟩) ESP_MAC_WIFI_STA
      = (ESP_OK, null_mac, some ⟨0x01, 0x00, 0x5e, 0x00, 0x00, 0x01⟩) ∧
    esp_base_mac_addr_get
        (esp_read_mac cfg_esp32s2_two efuse_factory_multicast null_mac ⟨1, 2, 3, 4, 5, 6⟩
          (some ⟨9, 9, 9, 9, 9, 9⟩) ESP_MAC_WIFI_STA).2.1 ⟨7, 7, 7, 7, 7, 7⟩
      = (ESP_ERR_INVALID_MAC, ⟨7, 7, 7, 7, 7, 7⟩) := by
  decide

/-- C18 (amended): for every valid interface type, if the slot is unset and
`esp_efuse_mac_get_default` succeeds with an address `m` that is unicast and not
all zero, then `esp_read_mac` returns `ESP_OK` and leaves `m` in the slot, so
`esp_base_mac_addr_get` returns `ESP_OK` with `m`, and a second `esp_read_mac`
gives a result in which the fuse driver plays no part. -/
theorem read_mac_write_back (cfg : Config) (ef : Efuse) (stack out m : Mac) (type : Int)
    (h0 : ESP_MAC_WIFI_STA ≤ type) (h1 : type ≤ ESP_MAC_ETH)
    (hd : esp_efuse_mac_get_default cfg ef stack = (ESP_OK, m))
    (hu : m.b0.val.testBit 0 = false) (hz : m ≠ null_mac) :
    esp_read_mac cfg ef null_mac stack (some out) type
      = (ESP_OK, m, some (read_mac_switch cfg m out type)) ∧
    (∀ out2 : Mac,
      esp_base_mac_addr_get (esp_read_mac cfg ef null_mac stack (some out) type).2.1 out2
        = (ESP_OK, m)) ∧
    (∀ (ef2 : Efuse) (stack2 out2 : Mac) (type2 : Int),
      ESP_MAC_WIFI_STA ≤ type2 → type2 ≤ ESP_MAC_ETH →
      esp_read_mac cfg ef2 (esp_read_mac cfg ef null_mac stack (some out) type).2.1 stack2
          (some out2) type2
        = (ESP_OK, m, some (read_mac_switch cfg m out2 type2))) := by
  have hs : esp_base_mac_addr_set null_mac (some m) = (ESP_OK, m) :=
    base_mac_set_unicast null_mac m hu
  have e : esp_read_mac cfg ef null_mac stack (some out) type
      = (ESP_OK, m, some (read_mac_switch cfg m out type)) := by
    rw [read_mac_of_unset cfg ef stack out type h0 h1, hd, hs]
  refine ⟨e, ?_, ?_⟩
  · intro out2
    rw [e]
    simp only [esp_base_mac_addr_get, memcmp_bytes_eq_zero_iff, if_neg hz]
  · intro ef2 stack2 out2 type2 g0 g1
    rw [e]
    exact read_mac_of_stored cfg ef2 m stack2 out2 type2 hz g0 g1

/-- Witness of `read_mac_write_back` on an ESP32 whose factory address
`24:0A:C4:00:00:10` passes the CRC check. -/
theorem read_mac_write_back_witness :
    esp_read_mac cfg_esp32_two efuse_factory_good null_mac ⟨1, 2, 3, 4, 5, 6⟩
        (some ⟨9, 9, 9, 9, 9, 9⟩) ESP_MAC_WIFI_STA
      = (ESP_OK, ⟨0x24, 0x0a, 0xc4, 0x00, 0x00, 0x10⟩, some ⟨0x24, 0x0a, 0xc4, 0x00, 0x00, 0x10⟩) ∧
    esp_base_mac_addr_get
        (esp_read_mac cfg_esp32_two efuse_factory_good null_mac ⟨1, 2, 3, 4, 5, 6⟩
          (some ⟨9, 9, 9, 9, 9, 9⟩) ESP_MAC_WIFI_STA).2.1 ⟨7, 7, 7, 7, 7, 7⟩
      = (ESP_OK, ⟨0x24, 0x0a, 0xc4, 0x00, 0x00, 0x10⟩) :=
  ⟨(read_mac_write_back cfg_esp32_two efuse_factory_good ⟨1, 2, 3, 4, 5, 6⟩ ⟨9, 9, 9, 9, 9, 9⟩
      ⟨0x24, 0x0a, 0xc4, 0x00, 0x00, 0x10⟩ ESP_MAC_WIFI_STA (by decide) (by decide) (by decide)
      (by decide) (by decide)).1,
   (read_mac_write_back cfg_esp32_two efuse_factory_good ⟨1, 2, 3, 4, 5, 6⟩ ⟨9, 9, 9, 9, 9, 9⟩
      ⟨0x24, 0x0a, 0xc4, 0x00, 0x00, 0x10⟩ ESP_MAC_WIFI_STA (by decide) (by decide) (by decide)
      (by decide) (by decide)).2.1 ⟨7, 7, 7, 7, 7, 7⟩⟩

/-- The Bluetooth case of the `switch` with the universal Bluetooth address on. -/
theorem read_mac_switch_bt_universal (cfg : Config) (b out : Mac)
    (hc : cfg.CONFIG_ESP_MAC_ADDR_UNIVERSE_BT = true) :
    read_mac_switch cfg b out ESP_MAC_BT
      = ⟨b.b0, b.b1, b.b2, b.b3, b.b4,
          u8 (b.b5.val + cfg.CONFIG_ESP_MAC_ADDR_UNIVERSE_BT_OFFSET)⟩ := by
  have e1 : ¬ (ESP_MAC_BT = ESP_MAC_WIFI_STA) := by decide
  have e2 : ¬ (ESP_MAC_BT = ESP_MAC_WIFI_SOFTAP) := by decide
  simp only [read_mac_switch, if_neg e1, if_neg e2, if_true, hc]

/-- The Ethernet case of the `switch` with the universal Ethernet address on. -/
theorem read_mac_switch_eth_universal (cfg : Config) (b out : Mac)
    (hc : cfg.CONFIG_ESP_MAC_ADDR_UNIVERSE_ETH = true) :
    read_mac_switch cfg b out ESP_MAC_ETH
      = ⟨b.b0, b.b1, b.b2, b.b3, b.b4, u8 (b.b5.val + 3)⟩ := by
  have e1 : ¬ (ESP_MAC_ETH = ESP_MAC_WIFI_STA) := by decide
  have e2 : ¬ (ESP_MAC_ETH = ESP_MAC_WIFI_SOFTAP) := by decide
  have e3 : ¬ (ESP_MAC_ETH = ESP_MAC_BT) := by decide
  simp only [read_mac_switch, if_neg e1, if_neg e2, if_neg e3, if_true, hc]

/-- C19: with `CONFIG_ESP_MAC_ADDR_UNIVERSE_WIFI_AP`, `CONFIG_ESP_MAC_ADDR_UNIVERSE_BT`
(offset 2) and `CONFIG_ESP_MAC_ADDR_UNIVERSE_ETH` all on, for every stored non-zero
base `b` on any chip (the ESP32-S2 bases inside the remapped range included), the
four addresses `esp_read_mac` returns for `ESP_MAC_WIFI_STA`, `ESP_MAC_WIFI_SOFTAP`,
`ESP_MAC_BT` and `ESP_MAC_ETH` are pairwise distinct. -/
theorem read_mac_four_distinct (cfg : Config) (ef : Efuse)
    (b s1 o1 s2 o2 s3 o3 s4 o4 : Mac)
    (ha : cfg.CONFIG_ESP_MAC_ADDR_UNIVERSE_WIFI_AP = true)
    (hbt : cfg.CONFIG_ESP_MAC_ADDR_UNIVERSE_BT = true)
    (hoff : cfg.CONFIG_ESP_MAC_ADDR_UNIVERSE_BT_OFFSET = 2)
    (he : cfg.CONFIG_ESP_MAC_ADDR_UNIVERSE_ETH = true) (hb : b ≠ null_mac) :
    ∃ sta ap bt eth : Mac,
      esp_read_mac cfg ef b s1 (some o1) ESP_MAC_WIFI_STA = (ESP_OK, b, some sta) ∧
      esp_read_mac cfg ef b s2 (some o2) ESP_MAC_WIFI_SOFTAP = (ESP_OK, b, some ap) ∧
      esp_read_mac cfg ef b s3 (some o3) ESP_MAC_BT = (ESP_OK, b, some bt) ∧
      esp_read_mac cfg ef b s4 (some o4) ESP_MAC_ETH = (ESP_OK, b, some eth) ∧
      sta ≠ ap ∧ sta ≠ bt ∧ sta ≠ eth ∧ ap ≠ bt ∧ ap ≠ eth ∧ bt ≠ eth := by
  obtain ⟨d1, d2, d3, d12, d13, d23⟩ := byte_add_distinct b.b5
  have d3' := (byte_add_distinct b.b3).2.1
  have esta : esp_read_mac cfg ef b s1 (some o1) ESP_MAC_WIFI_STA = (ESP_OK, b, some b) := by
    rw [read_mac_of_stored cfg ef b s1 o1 ESP_MAC_WIFI_STA hb (by decide) (by decide)]
    simp only [read_mac_switch, if_true]
  have eap : esp_read_mac cfg ef b s2 (some o2) ESP_MAC_WIFI_SOFTAP
      = (ESP_OK, b, some (read_mac_switch cfg b o2 ESP_MAC_WIFI_SOFTAP)) :=
    read_mac_of_stored cfg ef b s2 o2 ESP_MAC_WIFI_SOFTAP hb (by decide) (by decide)
  have ebt : esp_read_mac cfg ef b s3 (some o3) ESP_MAC_BT
      = (ESP_OK, b, some ⟨b.b0, b.b1, b.b2, b.b3, b.b4, u8 (b.b5.val + 2)⟩) := by
    rw [read_mac_of_stored cfg ef b s3 o3 ESP_MAC_BT hb (by decide) (by decide),
      read_mac_switch_bt_universal cfg b o3 hbt, hoff]
  have eeth : esp_read_mac cfg ef b s4 (some o4) ESP_MAC_ETH
      = (ESP_OK, b, some ⟨b.b0, b.b1, b.b2, b.b3, b.b4, u8 (b.b5.val + 3)⟩) := by
    rw [read_mac_of_stored cfg ef b s4 o4 ESP_MAC_ETH hb (by decide) (by decide),
      read_mac_switch_eth_universal cfg b o4 he]
  refine ⟨b, read_mac_switch cfg b o2 ESP_MAC_WIFI_SOFTAP, _, _, esta, eap, ebt, eeth, ?_⟩
  have hbt_sta : b ≠ ⟨b.b0, b.b1, b.b2, b.b3, b.b4, u8 (b.b5.val + 2)⟩ :=
    fun h => d2 (congrArg Mac.b5 h).symm
  have heth_sta : b ≠ ⟨b.b0, b.b1, b.b2, b.b3, b.b4, u8 (b.b5.val + 3)⟩ :=
    fun h => d3 (congrArg Mac.b5 h).symm
  have hbt_eth : (⟨b.b0, b.b1, b.b2, b.b3, b.b4, u8 (b.b5.val + 2)⟩ : Mac)
      ≠ ⟨b.b0, b.b1, b.b2, b.b3, b.b4, u8 (b.b5.val + 3)⟩ :=
    fun h => d23 (congrArg Mac.b5 h)
  rw [read_mac_switch_softap_universal cfg b o2 ha]
  by_cases hr : cfg.CONFIG_IDF_TARGET = idf_target.ESP32S2 ∧ in_softap_remap_range b
  · rw [if_pos hr]
    refine ⟨fun h => d3' (congrArg Mac.b3 h).symm, hbt_sta, heth_sta,
      fun h => d3' (congrArg Mac.b3 h), fun h => d3' (congrArg Mac.b3 h), hbt_eth⟩
  · rw [if_neg hr]
    refine ⟨fun h => d1 (congrArg Mac.b5 h).symm, hbt_sta, heth_sta,
      fun h => d12 (congrArg Mac.b5 h), fun h => d13 (congrArg Mac.b5 h), hbt_eth⟩

/-- Witness of `read_mac_four_distinct` on an ESP32-S2 at the base
`7C:DF:A1:00:40:00`, which lies inside the remapped range. -/
theorem read_mac_four_distinct_witness :
    ∃ sta ap bt eth : Mac,
      esp_read_mac cfg_esp32s2_four efuse_read_fails ⟨0x7c, 0xdf, 0xa1, 0x00, 0x40, 0x00⟩
          null_mac (some null_mac) ESP_MAC_WIFI_STA
        = (ESP_OK, ⟨0x7c, 0xdf, 0xa1, 0x00, 0x40, 0x00⟩, some sta) ∧
      esp_read_mac cfg_esp32s2_four efuse_read_fails ⟨0x7c, 0xdf, 0xa1, 0x00, 0x40, 0x00⟩
          null_mac (some null_mac) ESP_MAC_WIFI_SOFTAP
        = (ESP_OK, ⟨0x7c, 0xdf, 0xa1, 0x00, 0x40, 0x00⟩, some ap) ∧
      esp_read_mac cfg_esp32s2_four efuse_read_fails ⟨0x7c, 0xdf, 0xa1, 0x00, 0x40, 0x00⟩
          null_mac (some null_mac) ESP_MAC_BT
        = (ESP_OK, ⟨0x7c, 0xdf, 0xa1, 0x00, 0x40, 0x00⟩, some bt) ∧
      esp_read_mac cfg_esp32s2_four efuse_read_fails ⟨0x7c, 0xdf, 0xa1, 0x00, 0x40, 0x00⟩
          null_mac (some null_mac) ESP_MAC_ETH
        = (ESP_OK, ⟨0x7c, 0xdf, 0xa1, 0x00, 0x40, 0x00⟩, some eth) ∧
      sta ≠ ap ∧ sta ≠ bt ∧ sta ≠ eth ∧ ap ≠ bt ∧ ap ≠ eth ∧ bt ≠ eth :=
  read_mac_four_distinct cfg_esp32s2_four efuse_read_fails ⟨0x7c, 0xdf, 0xa1, 0x00, 0x40, 0x00⟩
    null_mac null_mac null_mac null_mac null_mac null_mac null_mac null_mac
    rfl rfl rfl rfl (by decide)

end MacAddr
